import Mathlib

/-!
# A verification model of the `schema-object` runtime schema layer

This file gives a shallow embedding, in Lean, of `src/lib/schemaobject.js`:
a runtime schema layer whose instances intercept every field read and write,
route them through a per-type typecast engine, capture rejected writes in a
per-instance error ledger, and project instances back to plain value trees
via `toObject()`.

Modelling conventions, chosen once and used throughout:

* JavaScript values are modelled by the inductive `JsVal`.  Numbers are
  restricted to integers (`Int`); no property examined here involves
  fractional values.  `Date` objects are modelled by their epoch-millisecond
  value.
* Reference identity of the mutable containers (`SchemaArray` instances and
  schema object instances) is modelled by an allocation id (`Nat`), drawn
  from a freshness counter that is threaded through every operation.  An
  operation that mutates a container in place keeps its id; an operation
  that allocates produces a fresh id.
* All function-valued schema options and hooks (`transform`,
  `stringTransform`, `numberTransform`, `booleanTransform`, `dateTransform`,
  `getter`, `filter`, `onBeforeValueSet`, `onValueSet`, the `toObject`
  post-hook, `regex`) are not modelled: the embedding covers hookless field
  declarations, which is all the examined properties use.  Likewise the
  `dotNotation` option is fixed off (its branch in the interception traps,
  which walks paths via lodash `_.get`/`_.set`, is not modelled).
* The host `Date.parse` is environment-defined; it enters the model as the
  `dateParse` component of `Opts`, so theorems hold for every parse
  function.
* Thrown JavaScript exceptions are modelled by `Except JSErr`.  Recursion
  is bounded by an explicit fuel parameter; exhaustion is reported as the
  distinguished `JSErr.outOfFuel`, which the modelled catch blocks re-raise
  instead of logging (it is a model artifact, not a JavaScript exception).
* Schemas are taken in already-normalized form (`FieldSpec` is the
  canonical shape produced by `normalizeProperties`); the normalization
  pass in the constructor is therefore the identity here.  The one place
  the engine itself normalizes — dynamically adding an undeclared key as
  `{type: 'any'}` in permissive mode — is modelled by `anyProps`.
-/

/-- A plain JavaScript value (the external view: candidates for writes and
the output of `toObject()`). -/
inductive JsVal where
  | undef
  | null
  | str (s : String)
  | num (n : Int)
  | bool (b : Bool)
  | date (ms : Int)
  | arr (xs : List JsVal)
  | obj (kvs : List (String × JsVal))

/-- The normalized, lowercase type tags of field specifications. -/
inductive FType where
  | string | number | boolean | array | object | date | alias | any
  deriving DecidableEq

/-- A field default: either a literal value or a zero-argument producer,
which can return a value or throw (`.error msg`).  Producers are modelled
as constant outcomes, since without hooks they cannot depend on the
instance. -/
inductive DefaultSpec where
  | value (v : JsVal)
  | producer (r : Except String JsVal)

/-- A normalized field specification (the canonical form produced by
`normalizeProperties`): the type tag plus the data-valued constraints and
behaviors of `schemaobject.js`.  `clip` mirrors the source's
`properties.clip !== undefined` test, hence `Option Bool`.  `objectType`
holds the compiled sub-schema of a nested schema object; `arrayType` the
element specification of a typed array. -/
inductive FieldSpec where
  | mk (name : String) (ftype : FType)
       (minLength maxLength : Option Nat)
       (enumVals : Option (List String))
       (clip : Option Bool)
       (minV maxV : Option Int)
       (unique : Bool)
       (arrayType : Option FieldSpec)
       (objectType : Option (List (String × FieldSpec)))
       (defaultVal : Option DefaultSpec)
       (readOnly invisible : Bool)
       (aliasIndex : Option String)
       (isAlias : Bool)

/-- A schema definition: field name to field specification, in declaration
order. -/
abbrev Schema := List (String × FieldSpec)

namespace FieldSpec

def name : FieldSpec → String
  | .mk n _ _ _ _ _ _ _ _ _ _ _ _ _ _ _ => n

def ftype : FieldSpec → FType
  | .mk _ t _ _ _ _ _ _ _ _ _ _ _ _ _ _ => t

def minLength : FieldSpec → Option Nat
  | .mk _ _ a _ _ _ _ _ _ _ _ _ _ _ _ _ => a

def maxLength : FieldSpec → Option Nat
  | .mk _ _ _ a _ _ _ _ _ _ _ _ _ _ _ _ => a

def enumVals : FieldSpec → Option (List String)
  | .mk _ _ _ _ a _ _ _ _ _ _ _ _ _ _ _ => a

def clip : FieldSpec → Option Bool
  | .mk _ _ _ _ _ a _ _ _ _ _ _ _ _ _ _ => a

def minV : FieldSpec → Option Int
  | .mk _ _ _ _ _ _ a _ _ _ _ _ _ _ _ _ => a

def maxV : FieldSpec → Option Int
  | .mk _ _ _ _ _ _ _ a _ _ _ _ _ _ _ _ => a

def unique : FieldSpec → Bool
  | .mk _ _ _ _ _ _ _ _ a _ _ _ _ _ _ _ => a

def arrayType : FieldSpec → Option FieldSpec
  | .mk _ _ _ _ _ _ _ _ _ a _ _ _ _ _ _ => a

def objectType : FieldSpec → Option (List (String × FieldSpec))
  | .mk _ _ _ _ _ _ _ _ _ _ a _ _ _ _ _ => a

def defaultVal : FieldSpec → Option DefaultSpec
  | .mk _ _ _ _ _ _ _ _ _ _ _ a _ _ _ _ => a

def readOnly : FieldSpec → Bool
  | .mk _ _ _ _ _ _ _ _ _ _ _ _ a _ _ _ => a

def invisible : FieldSpec → Bool
  | .mk _ _ _ _ _ _ _ _ _ _ _ _ _ a _ _ => a

def aliasIndex : FieldSpec → Option String
  | .mk _ _ _ _ _ _ _ _ _ _ _ _ _ _ a _ => a

def isAlias : FieldSpec → Bool
  | .mk _ _ _ _ _ _ _ _ _ _ _ _ _ _ _ a => a

/-- Replace the `readOnly` flag (models the constructor's temporary lift of
`readOnly` while defaults are populated; the flag is restored afterwards,
so the net schema is unchanged and only the one write sees it lifted). -/
def setReadOnly : FieldSpec → Bool → FieldSpec
  | .mk n t mnl mxl en cl mn mx u at' ot df _ inv ai ia, b =>
    .mk n t mnl mxl en cl mn mx u at' ot df b inv ai ia

end FieldSpec

/-- A thrown JavaScript exception: a `SetterError` (message, rejected
value, and the name of the violated field's specification), any other
JavaScript error, or the model-artifact fuel-exhaustion signal. -/
inductive JSErr where
  | setterError (errorMessage : String) (setValue : JsVal) (fieldName : String)
  | jsError (msg : String)
  | outOfFuel

/-- A value as stored in an instance's raw value store `_obj`: a plain
value, a `SchemaArray` container (allocation id, the field properties it
was created with, and its current elements), or a nested schema object
instance (allocation id, raw store, error ledger). -/
inductive StoredVal where
  | js (v : JsVal)
  | schemaArr (id : Nat) (props : FieldSpec) (elems : List StoredVal)
  | inst (id : Nat) (fields : List (String × StoredVal)) (errors : List JSErr)

/-- The state of one schema object instance: allocation id, raw value
store, and error ledger. -/
structure InstState where
  id : Nat
  obj : List (String × StoredVal)
  errors : List JSErr

/-- View an instance state as a stored value. -/
def StoredVal.ofInst (i : InstState) : StoredVal := .inst i.id i.obj i.errors

/-- The factory options modelled here (`dotNotation` fixed off; hook
options not modelled).  `dateParse` stands for the host `Date.parse`,
returning epoch milliseconds or `none` for `NaN`. -/
structure Opts where
  strict : Bool
  setUndefined : Bool
  preserveNull : Bool
  keysIgnoreCase : Bool
  dateParse : String → Option Int

/-- The default factory options (`strict: true`, everything else off). -/
def defaultOpts : Opts := ⟨true, false, false, false, fun _ => none⟩

/-- Permissive-mode options (`strict: false`), otherwise defaults. -/
def permissiveOpts : Opts := ⟨false, false, false, false, fun _ => none⟩

/-! ## Pure helpers (lodash predicates, coercion utilities) -/

/-- JavaScript truthiness on plain values: `undefined`, `null`, `false`,
`0` and `''` are falsy. -/
def jsFalsyV : JsVal → Bool
  | .undef => true
  | .null => true
  | .bool b => !b
  | .num n => n == 0
  | .str s => s == ""
  | _ => false

/-- JavaScript truthiness of a stored value (containers are objects,
hence truthy). -/
def jsFalsy : StoredVal → Bool
  | .js v => jsFalsyV v
  | _ => false

/-- lodash `_.isObject` on plain values: arrays, plain objects and dates
are objects; primitives and `null` are not. -/
def isObjectJs : JsVal → Bool
  | .arr _ => true
  | .obj _ => true
  | .date _ => true
  | _ => false

/-- lodash `_.isObject` on stored values (both container kinds are
objects). -/
def isObjectStored : StoredVal → Bool
  | .js v => isObjectJs v
  | _ => true

/-- Digit-list reading of a natural number; `none` when a non-digit
appears or no digit was read. -/
def digitsToNat? : List Char → Option Nat → Option Nat
  | [], acc => acc
  | c :: rest, acc =>
    if c.isDigit then digitsToNat? rest (some ((acc.getD 0) * 10 + (c.toNat - 48)))
    else none

/-- Integer reading of a string (an optional minus sign followed by
digits), standing for the JavaScript numeric reading of a string in this
integral model. -/
def jsParseInt (s : String) : Option Int :=
  match s.data with
  | '-' :: rest => (digitsToNat? rest none).map (fun n => -(n : Int))
  | l => (digitsToNat? l none).map (fun n => (n : Int))

/-- Remove every comma (`value.replace(/,/g, '')`). -/
def stripCommas (s : String) : String := ⟨s.data.filter (fun c => c != ',')⟩

/-- `isNumeric` from the source (`!isNaN(parseFloat(n)) && isFinite(n)`),
restricted to the integral values of this model: numbers are numeric,
strings are numeric when they read as an integer, everything else
(booleans, dates, containers) is not. -/
def isNumericJs : JsVal → Bool
  | .num _ => true
  | .str s => (jsParseInt s).isSome
  | _ => false

/-- Numeric reading of a value on the paths guarded by `isNumericJs`. -/
def jsToNum : JsVal → Int
  | .num n => n
  | .str s => (jsParseInt s).getD 0
  | .bool b => if b then 1 else 0
  | _ => 0

/-- JavaScript stringification `value + ''` for the values that reach the
string typecast (primitives only; objects and arrays were rejected
earlier). -/
def jsToString : JsVal → String
  | .str s => s
  | .num n => toString n
  | .bool b => if b then "true" else "false"
  | .null => "null"
  | .undef => "undefined"
  | _ => ""

/-- The digit-length scale test of the date typecast:
`(value + '').length` for a number. -/
def jsNumLen (n : Int) : Nat := (toString n).length

/-- lodash `_.toArray` applied after an `_.isObject` guard: an array's
elements, an object's values, an empty sequence for a date (no enumerable
own keys); `none` when the input is not an object (so the array typecast
rejects). -/
def jsToArrayLodash : JsVal → Option (List JsVal)
  | .arr xs => some xs
  | .obj kvs => some (kvs.map Prod.snd)
  | .date _ => some []
  | _ => none

/-- `for (const key in value)` over an object-guarded value: an object's
own key/value pairs, an array's index/element pairs (indices as strings),
nothing for a date. -/
def jsOwnKvs : JsVal → List (String × JsVal)
  | .obj kvs => kvs
  | .arr xs => (xs.enum.map fun p => (toString p.1, p.2))
  | _ => []

/-- SameValueZero comparison as used by lodash `_.difference`:
primitives by value, containers by reference (allocation id for the
modelled containers; plain objects, arrays and dates stored as values are
distinct references here, hence never equal). -/
def sameValueZero : StoredVal → StoredVal → Bool
  | .js .undef, .js .undef => true
  | .js .null, .js .null => true
  | .js (.str a), .js (.str b) => a == b
  | .js (.num a), .js (.num b) => a == b
  | .js (.bool a), .js (.bool b) => a == b
  | .inst i _ _, .inst j _ _ => i == j
  | .schemaArr i _ _, .schemaArr j _ _ => i == j
  | _, _ => false

/-- Read a key of a raw value store (`this[_privateKey]._obj[index]`);
an absent key reads as `undefined`. -/
def storeGet (kvs : List (String × StoredVal)) (k : String) : StoredVal :=
  match kvs.find? (fun p => p.1 == k) with
  | some p => p.2
  | none => (.js .undef : StoredVal)

/-- Write a key of a raw value store, replacing in place or appending. -/
def storeWrite (kvs : List (String × StoredVal)) (k : String) (v : StoredVal) :
    List (String × StoredVal) :=
  match kvs with
  | [] => [(k, v)]
  | (k', v') :: rest =>
    if k' == k then (k', v) :: rest else (k', v') :: storeWrite rest k v

/-- Look a field name up in a schema. -/
def schemaLookup (schema : Schema) (k : String) : Option FieldSpec :=
  match schema.find? (fun p => p.1 == k) with
  | some p => some p.2
  | none => none

/-- `getIndex`: resolve a key case-insensitively against the schema's
declared keys, returning the declared spelling when one matches. -/
def getIndexCI (schema : Schema) (name : String) : String :=
  match schema.find? (fun p => p.1.toLower == name.toLower) with
  | some p => p.1
  | none => name

/-- The specification a permissive-mode write adds for an undeclared key:
`normalizeProperties({type: 'any'}, name)`. -/
def anyProps (name : String) : FieldSpec :=
  .mk name .any none none none none none none false none none none false false none false

/-- Evaluate a field default (`_.isFunction(default) ? default.call(this)
: default`); a throwing producer surfaces as a JavaScript error. -/
def computeDefault : DefaultSpec → Except JSErr JsVal
  | .value v => .ok v
  | .producer (.ok v) => .ok v
  | .producer (.error m) => .error (.jsError m)

/-- The outcome of one `typecast` call: the accepted value, or a rejection
carrying the thrown error together with the original value as it stands
after the call (the array case mutates the container in place before an
element rejection can be thrown, so the original may have changed). -/
inductive TCr where
  | ok (out : StoredVal)
  | rej (e : JSErr) (orig : StoredVal)

/-! ## The typecast engine: non-recursive cases

`typecast` (source lines 104–321) for the primitive types.  The `array`
and `object` cases recurse into containers and live in the fueled engine
below; `any` and `alias` both reach the switch's default passthrough. -/

/-- The string constraint chain (clip, then enum, minLength, maxLength,
in the source's order) applied to the stringified candidate. -/
def stringRules (props : FieldSpec) (s : String) : Except JSErr JsVal :=
  -- clip (set together with maxLength) truncates to maxLength first.
  let s : String := match props.clip, props.maxLength with
    | some _, some n => ⟨s.data.take n⟩
    | _, _ => s
  if (match props.enumVals with
      | some es => !es.contains s
      | none => false) then
    .error (.setterError "String does not exist in enum list." (.str s) props.name)
  else if (match props.minLength with
      | some m => decide (s.length < m)
      | none => false) then
    .error (.setterError "String length too short to meet minLength requirement."
      (.str s) props.name)
  else if (match props.maxLength with
      | some n => decide (s.length > n)
      | none => false) then
    .error (.setterError "String length too long to meet maxLength requirement."
      (.str s) props.name)
  else .ok (.str s)

/-- The numeric range checks (min, then max). -/
def numberRules (props : FieldSpec) (n : Int) : Except JSErr JsVal :=
  if (match props.minV with | some m => decide (n < m) | none => false) then
    .error (.setterError "Number is too small to meet min requirement." (.num n) props.name)
  else if (match props.maxV with | some m => decide (n > m) | none => false) then
    .error (.setterError "Number is too big to meet max requirement." (.num n) props.name)
  else .ok (.num n)

/-- The timestamp scale heuristic of the date typecast:
`new Date((value + '').length > 10 ? value : value * 1000)`. -/
def dateOfNum (n : Int) : JsVal := .date (if jsNumLen n > 10 then n else n * 1000)

/-- The `string` case of `typecast`: reject objects and arrays, clear on
`null`/`undefined`, stringify, then run the constraint chain. -/
def typecastString (opts : Opts) (props : FieldSpec) (v : JsVal) : Except JSErr JsVal :=
  if isObjectJs v then
    .error (.setterError "String type cannot typecast Object or Array types." v props.name)
  else
    match v with
    | .undef | .null => .ok .undef
    | v0 => stringRules props (jsToString v0)

/-- The `number` case of `typecast`: clear on `null`/`undefined`/`''`,
coerce booleans to `1`/`0`, strip commas from strings, reject
non-numeric or structural values, then run the range checks. -/
def typecastNumber (opts : Opts) (props : FieldSpec) (v : JsVal) : Except JSErr JsVal :=
  match v with
  | .undef | .null | .str "" => .ok .undef
  | v0 =>
    let v1 : JsVal := match v0 with
      | .bool b => .num (if b then 1 else 0)
      | .str s => .str (stripCommas s)
      | w => w
    if isObjectJs v1 || !isNumericJs v1 then
      .error (.setterError "Number type cannot typecast Array or Object types." v1 props.name)
    else numberRules props (jsToNum v1)

/-- The `boolean` case of `typecast`: clear on `null`/`undefined`/`''`;
the literal string `'false'` becomes `false`; numeric values are true
exactly when positive; everything else coerces by truthiness. -/
def typecastBoolean (opts : Opts) (props : FieldSpec) (v : JsVal) : Except JSErr JsVal :=
  match v with
  | .undef | .null | .str "" => .ok .undef
  | .str "false" => .ok (.bool false)
  | v0 =>
    if isNumericJs v0 then .ok (.bool (decide (jsToNum v0 > 0)))
    else .ok (.bool (!jsFalsyV v0))

/-- The `date` case of `typecast`: clear on `null`/`undefined`/`''`;
reject values that are not dates, strings or numbers; parse strings with
`Date.parse`, whose millisecond result re-enters the numeric scale
heuristic; dates pass through.  (The rejection for an unparsable string
carries the string; in the source the thrown value is the `NaN` that
`Date.parse` produced.) -/
def typecastDate (opts : Opts) (props : FieldSpec) (v : JsVal) : Except JSErr JsVal :=
  match v with
  | .undef | .null | .str "" => .ok .undef
  | .str s =>
    match opts.dateParse s with
    | some ms => .ok (dateOfNum ms)
    | none => .error (.setterError "Could not parse date." (.str s) props.name)
  | .num n => .ok (dateOfNum n)
  | .date ms => .ok (.date ms)
  | v0 => .error (.setterError "Date type cannot typecast Array or Object types." v0 props.name)

/-- The non-recursive cases of `typecast` (source lines 104-321),
dispatched on the normalized type tag; `any` and `alias` reach the
switch's default passthrough.  The recursive `array` and `object` cases
live in the fueled engine below. -/
def typecastPrim (opts : Opts) (props : FieldSpec) (v : JsVal) : Except JSErr JsVal :=
  match props.ftype with
  | .string => typecastString opts props v
  | .number => typecastNumber opts props v
  | .boolean => typecastBoolean opts props v
  | .date => typecastDate opts props v
  | _ => .ok v

theorem typecastString_str (opts : Opts) (props : FieldSpec) (s : String) :
    typecastString opts props (.str s) = stringRules props s := rfl

theorem typecastNumber_num (opts : Opts) (props : FieldSpec) (n : Int) :
    typecastNumber opts props (.num n) = numberRules props n := rfl

theorem typecastDate_num (opts : Opts) (props : FieldSpec) (n : Int) :
    typecastDate opts props (.num n) = .ok (dateOfNum n) := rfl

/-- Qualify nested errors with the containing field name
(`subError.fieldSchema.name = name + '.' + sub`); a sub-error that is not
a `SetterError` has no `fieldSchema`, so the property write throws. -/
def qualifyErrs (nm : String) : List JSErr → Except JSErr (List JSErr)
  | [] => .ok []
  | .setterError m sv fn :: rest =>
    match qualifyErrs nm rest with
    | .error e => .error e
    | .ok qs => .ok (.setterError m sv (nm ++ "." ++ fn) :: qs)
  | _ :: _ => .error (.jsError "Cannot set property name of undefined")

/-- The raw-store index a field reads and writes: the aliased index for
an alias field, else the field's own name. -/
def fieldIdx (props : FieldSpec) : String :=
  match props.ftype, props.aliasIndex with
  | .alias, some i => i
  | _, _ => props.name

/-! ## The fueled engine

The mutually recursive operations of the instance: the recursive typecast
cases, the registered getter/setter, the proxy `set` trap, construction,
population, clearing, output projection and error aggregation.  Recursion
is structural on the fuel; every recursive call uses the decremented
fuel, so concrete runs evaluate by `rfl`/`decide`. -/

set_option maxHeartbeats 3200000 in
mutual

/-- `typecast` (source lines 104–321): coerce/validate `v` against
`props`, with `orig` the field's current externally visible value.  The
array case empties the existing container and pushes the candidate's
elements one at a time (an element rejection aborts the loop, leaving the
elements accepted so far in the container); the object case with a
compiled sub-schema clears and repopulates the existing nested instance
in place, or allocates one when the original is `undefined`. -/
def typecastE : Nat → Opts → FieldSpec → JsVal → StoredVal → Nat → TCr × Nat
  | 0, _, _, _, orig, fresh => (.rej .outOfFuel orig, fresh)
  | fuel+1, opts, props, v, orig, fresh =>
    match v, opts.preserveNull with
    | .null, true => (.ok (.js .null), fresh)
    | v, _ =>
      match props.ftype with
      | .array =>
        match jsToArrayLodash v with
        | none =>
          (.rej (.setterError "Array type cannot typecast non-Array types." v props.name)
            orig, fresh)
        | some xs =>
          match orig with
          | .schemaArr id p _ =>
            match arrAssignE fuel opts p [] xs fresh with
            | (none, contents, f') => (.ok (.schemaArr id p contents), f')
            | (some e, sofar, f') => (.rej e (.schemaArr id p sofar), f')
          | other =>
            -- `originalValue.length = 0` on a non-container throws.
            (.rej (.jsError "Cannot set property length") other, fresh)
      | .object =>
        if !isObjectJs v then
          (.rej (.setterError "Object type cannot typecast non-Object types." v props.name)
            orig, fresh)
        else
          match props.objectType with
          | none => (.ok (.js v), fresh)
          | some S =>
            match orig with
            | .js .undef =>
              -- new properties.objectType({}, root)
              match mkInstE fuel opts S [] fresh with
              | .error e => (.rej e orig, fresh)
              | .ok (_, i0, f1) =>
                match populateE fuel opts S (jsOwnKvs v) i0 f1 with
                | .error e => (.rej e (.ofInst i0), f1)
                | .ok (_, i2, f2) => (.ok (.ofInst i2), f2)
            | .inst id flds errs =>
              -- schemaObject.clear(), then copy the keys over.
              match clearFieldsE fuel opts S S ⟨id, flds, errs⟩ fresh with
              | (some e, i1, f1) => (.rej e (.ofInst i1), f1)
              | (none, i1, f1) =>
                match populateE fuel opts S (jsOwnKvs v) i1 f1 with
                | .error e => (.rej e (.ofInst i1), f1)
                | .ok (_, i2, f2) => (.ok (.ofInst i2), f2)
            | other => (.rej (.jsError "clear is not a function") other, fresh)
      | _ =>
        match typecastPrim opts props v with
        | .ok out => (.ok (.js out), fresh)
        | .error e => (.rej e orig, fresh)
  termination_by structural fuel => fuel

/-- The in-place array write (`originalValue.length = 0` followed by
`_.each(value, v => originalValue.push(v))`): push the elements one at a
time; a throwing push aborts the loop, keeping the elements accepted so
far. -/
def arrAssignE : Nat → Opts → FieldSpec → List StoredVal → List JsVal → Nat →
    Option JSErr × List StoredVal × Nat
  | 0, _, _, acc, _, fresh => (some .outOfFuel, acc, fresh)
  | _+1, _, _, acc, [], fresh => (none, acc, fresh)
  | fuel+1, opts, p, acc, x :: xs, fresh =>
    match pushE fuel opts p acc [x] fresh with
    | (.ok acc', f') => arrAssignE fuel opts p acc' xs f'
    | (.error e, f') => (some e, acc, f')
  termination_by structural fuel => fuel

/-- `SchemaArray.push`: when an element spec is configured, typecast each
argument against it (a rejection throws out of the whole call, appending
nothing); then drop arguments already present by SameValueZero against
the current contents when `unique` is configured; then append the
survivors in order. -/
def pushE : Nat → Opts → FieldSpec → List StoredVal → List JsVal → Nat →
    Except JSErr (List StoredVal) × Nat
  | 0, _, _, _, _, fresh => (.error .outOfFuel, fresh)
  | fuel+1, opts, p, cur, args, fresh =>
    match (match p.arrayType with
           | some t => mapTypecastE fuel opts t args fresh
           | none => (.ok (args.map .js), fresh)) with
    | (.error e, f') => (.error e, f')
    | (.ok vals, f') =>
      let vals := if p.unique then
          vals.filter (fun v => !(cur.any (fun c => sameValueZero c v)))
        else vals
      (.ok (cur ++ vals), f')
  termination_by structural fuel => fuel

/-- Element-wise typecast of a push batch (`[].map.call(args, ...)`):
each argument is typecast against the element spec with `undefined` as
its original value; a rejection throws out of the map. -/
def mapTypecastE : Nat → Opts → FieldSpec → List JsVal → Nat →
    Except JSErr (List StoredVal) × Nat
  | 0, _, _, _, fresh => (.error .outOfFuel, fresh)
  | _+1, _, _, [], fresh => (.ok [], fresh)
  | fuel+1, opts, t, x :: xs, fresh =>
    match typecastE fuel opts t x (.js .undef) fresh with
    | (.ok out, f1) =>
      match mapTypecastE fuel opts t xs f1 with
      | (.ok rest, f2) => (.ok (out :: rest), f2)
      | (.error e, f2) => (.error e, f2)
    | (.rej e _, f1) => (.error e, f1)
  termination_by structural fuel => fuel

/-- The registered getter (`defineGetter`): lazily initialize an unset
object/array field (object: the declared default, written raw without
typecast, else a new nested instance or `{}`; array: a new
`SchemaArray`), then return the stored value (alias fields read the
aliased index).  A throwing default producer propagates — the lazy
initialization happens before the getter's try block — and the getter
hook, absent here, is the only thing that try block guards. -/
def getFieldE : Nat → Opts → Schema → FieldSpec → InstState → Nat →
    Except JSErr (StoredVal × InstState × Nat)
  | 0, _, _, _, _, _ => .error .outOfFuel
  | fuel+1, opts, schema, props, st, fresh =>
    if jsFalsy (storeGet st.obj (fieldIdx props)) &&
        (props.ftype == FType.object || props.ftype == FType.array) then
      match (if props.ftype == FType.object then
               match props.defaultVal with
               | some d =>
                 match computeDefault d with
                 | .error e => (.error e : Except JSErr (InstState × Nat))
                 | .ok dv => writeValueE fuel opts schema props (.js dv) st fresh
               | none =>
                 match props.objectType with
                 | some S =>
                   match mkInstE fuel opts S [] fresh with
                   | .error e => (.error e : Except JSErr (InstState × Nat))
                   | .ok (_, i0, f1) => writeValueE fuel opts schema props (.ofInst i0) st f1
                 | none => writeValueE fuel opts schema props (.js (.obj [])) st fresh
             else
               writeValueE fuel opts schema props (.schemaArr fresh props []) st (fresh+1)) with
      | .error e => .error e
      | .ok (st', f') => .ok (storeGet st'.obj (fieldIdx props), st', f')
    else
      .ok (storeGet st.obj (fieldIdx props), st, fresh)
  termination_by structural fuel => fuel

/-- The registered setter (`defineSetter`): no-op when `readOnly`;
otherwise read the field's current value through the public interface,
typecast the candidate against it, and write the result through
`writeValue`; anything thrown inside the try block — the prior-value
read, the typecast, the write — is caught and appended to the error
ledger (the array/object typecast cases may have mutated the container in
place before throwing, which the rejection branch writes back).  The
model-artifact `outOfFuel` is re-raised, not logged. -/
def setFieldE : Nat → Opts → Schema → FieldSpec → JsVal → InstState → Nat →
    Except JSErr (InstState × Nat)
  | 0, _, _, _, _, _, _ => .error .outOfFuel
  | fuel+1, opts, schema, props, v, st, fresh =>
    if props.readOnly then .ok (st, fresh)
    else
      match getFieldE fuel opts schema props st fresh with
      | .error .outOfFuel => .error .outOfFuel
      | .error e => .ok ({st with errors := st.errors ++ [e]}, fresh)
      | .ok (prior, st1, f1) =>
        match typecastE fuel opts props v prior f1 with
        | (.ok out, f2) =>
          match writeValueE fuel opts schema props out st1 f2 with
          | .error .outOfFuel => .error .outOfFuel
          | .error e => .ok ({st1 with errors := st1.errors ++ [e]}, f2)
          | .ok r => .ok r
        | (.rej .outOfFuel _, _) => .error .outOfFuel
        | (.rej e orig', f2) =>
          let obj' := match props.ftype with
            | .array | .object => storeWrite st1.obj props.name orig'
            | _ => st1.obj
          .ok ({st1 with obj := obj', errors := st1.errors ++ [e]}, f2)
  termination_by structural fuel => fuel

/-- `writeValue`: store to the raw value store; an alias field instead
assigns the aliased index through the public interface.  (A
permissive-mode schema addition through a dangling alias target is not
propagated; aliases of declared fields never add.) -/
def writeValueE : Nat → Opts → Schema → FieldSpec → StoredVal → InstState → Nat →
    Except JSErr (InstState × Nat)
  | 0, _, _, _, _, _, _ => .error .outOfFuel
  | fuel+1, opts, schema, props, value, st, fresh =>
    if props.ftype == FType.alias then
      match props.aliasIndex, value with
      | some target, .js w =>
        match setKeyE fuel opts schema target w st fresh with
        | .error e => .error e
        | .ok (_, st', f') => .ok (st', f')
      | _, _ => .ok (st, fresh)
    else
      .ok ({st with obj := storeWrite st.obj props.name value}, fresh)
  termination_by structural fuel => fuel

/-- The proxy `set` trap for a plain (non-path) key: resolve the key
case-insensitively when configured and undeclared as spelled; an
undeclared key is silently ignored in strict mode, and dynamically added
to the (shared, returned) schema as type `any` in permissive mode; the
write then routes through the registered setter. -/
def setKeyE : Nat → Opts → Schema → String → JsVal → InstState → Nat →
    Except JSErr (Schema × InstState × Nat)
  | 0, _, _, _, _, _, _ => .error .outOfFuel
  | fuel+1, opts, schema, name, v, st, fresh =>
    let name := if opts.keysIgnoreCase && (schemaLookup schema name).isNone then
        getIndexCI schema name
      else name
    match schemaLookup schema name with
    | some props =>
      match setFieldE fuel opts schema props v st fresh with
      | .error e => .error e
      | .ok (st', f') => .ok (schema, st', f')
    | none =>
      if opts.strict then .ok (schema, st, fresh)
      else
        let props := anyProps name
        let schema' := schema ++ [(name, props)]
        match setFieldE fuel opts schema' props v st fresh with
        | .error e => .error e
        | .ok (st', f') => .ok (schema', st', f')
  termination_by structural fuel => fuel

/-- The instance constructor: allocate an id, populate declared defaults
(each through the setter with `readOnly` temporarily lifted; a throwing
default producer propagates out of construction), then run the default
constructor `populate(values)` through the public interface (which may
grow the shared schema in permissive mode). -/
def mkInstE : Nat → Opts → Schema → List (String × JsVal) → Nat →
    Except JSErr (Schema × InstState × Nat)
  | 0, _, _, _, _ => .error .outOfFuel
  | fuel+1, opts, schema, values, fresh =>
    match defaultsE fuel opts schema schema ⟨fresh, [], []⟩ (fresh+1) with
    | .error e => .error e
    | .ok (st1, f1) => populateE fuel opts schema values st1 f1
  termination_by structural fuel => fuel

/-- The constructor's default-population pass over the schema. -/
def defaultsE : Nat → Opts → Schema → List (String × FieldSpec) → InstState → Nat →
    Except JSErr (InstState × Nat)
  | 0, _, _, _, _, _ => .error .outOfFuel
  | _+1, _, _, [], st, fresh => .ok (st, fresh)
  | fuel+1, opts, schema, (_, props) :: rest, st, fresh =>
    match props.defaultVal with
    | none => defaultsE fuel opts schema rest st fresh
    | some d =>
      match computeDefault d with
      | .error e => .error e
      | .ok dv =>
        match setFieldE fuel opts schema (props.setReadOnly false) dv st fresh with
        | .error e => .error e
        | .ok (st', f') => defaultsE fuel opts schema rest st' f'
  termination_by structural fuel => fuel

/-- `populate(values)`: write every key of the bag through the proxy
`set` trap, threading the (possibly growing) schema. -/
def populateE : Nat → Opts → Schema → List (String × JsVal) → InstState → Nat →
    Except JSErr (Schema × InstState × Nat)
  | 0, _, _, _, _, _ => .error .outOfFuel
  | _+1, _, schema, [], st, fresh => .ok (schema, st, fresh)
  | fuel+1, opts, schema, (k, v) :: rest, st, fresh =>
    match setKeyE fuel opts schema k v st fresh with
    | .error e => .error e
    | .ok (schema1, st1, f1) => populateE fuel opts schema1 rest st1 f1
  termination_by structural fuel => fuel

/-- The field loop of `toObject()`: skip invisible fields; read each
value through the public interface (which may lazily initialize
containers); skip `undefined` unless `setUndefined`; deep-materialize
object values — nested instance → its own `toObject()`, `SchemaArray` →
`toArray()`, plain array → `splice(0)` (which empties the stored array in
place), date → its value (the freshly built copy is immediately
overwritten by the fall-through write of the original), plain object →
shallow clone — then skip empty non-date object values unless
`setUndefined`. -/
def toObjFieldsE : Nat → Opts → Schema → List (String × FieldSpec) → InstState → Nat →
    Except JSErr (List (String × JsVal) × InstState × Nat)
  | 0, _, _, _, _, _ => .error .outOfFuel
  | _+1, _, _, [], st, fresh => .ok ([], st, fresh)
  | fuel+1, opts, schema, (nm, props) :: rest, st, fresh =>
    if props.invisible then toObjFieldsE fuel opts schema rest st fresh
    else
      match getFieldE fuel opts schema props st fresh with
      | .error e => .error e
      | .ok (value, st1, f1) =>
        match (match value with
               | .js .undef =>
                 (.ok (if opts.setUndefined then some JsVal.undef else none, st1, f1) :
                   Except JSErr (Option JsVal × InstState × Nat))
               | .inst id flds errs =>
                 let S := props.objectType.getD []
                 match toObjFieldsE fuel opts S S ⟨id, flds, errs⟩ f1 with
                 | .error e => .error e
                 | .ok (o, i', f2) =>
                   .ok (if !opts.setUndefined && o.isEmpty then none else some (.obj o),
                        {st1 with obj := storeWrite st1.obj nm (.ofInst i')}, f2)
               | .schemaArr id p elems =>
                 match toArrElemsE fuel opts p elems f1 with
                 | .error e => .error e
                 | .ok (xs, elems', f2) =>
                   .ok (if !opts.setUndefined && xs.isEmpty then none else some (.arr xs),
                        {st1 with obj := storeWrite st1.obj nm (.schemaArr id p elems')}, f2)
               | .js (.arr xs) =>
                 -- value.splice(0): empties the stored array, returns its elements.
                 .ok (if !opts.setUndefined && xs.isEmpty then none else some (.arr xs),
                      {st1 with obj := storeWrite st1.obj nm (.js (.arr []))}, f1)
               | .js (.date ms) => .ok (some (.date ms), st1, f1)
               | .js (.obj kvs) =>
                 .ok (if !opts.setUndefined && kvs.isEmpty then none else some (.obj kvs),
                      st1, f1)
               | .js w => .ok (some w, st1, f1)) with
        | .error e => .error e
        | .ok (mat, st2, f2) =>
          match toObjFieldsE fuel opts schema rest st2 f2 with
          | .error e => .error e
          | .ok (out, st3, f3) =>
            .ok ((match mat with
                  | some v' => (nm, v') :: out
                  | none => out), st3, f3)
  termination_by structural fuel => fuel

/-- The element loop of `SchemaArray.toArray()`: materialize each element
— nested instance → its own `toObject()` (mutations of the element, such
as lazy initialization inside it, persist), other objects → shallow
clone, dates → a copied date value. -/
def toArrElemsE : Nat → Opts → FieldSpec → List StoredVal → Nat →
    Except JSErr (List JsVal × List StoredVal × Nat)
  | 0, _, _, _, _ => .error .outOfFuel
  | _+1, _, _, [], fresh => .ok ([], [], fresh)
  | fuel+1, opts, p, elem :: rest, fresh =>
    match (match elem with
           | .inst id flds errs =>
             let S := (match p.arrayType with
                       | some t => t.objectType.getD []
                       | none => [])
             match toObjFieldsE fuel opts S S ⟨id, flds, errs⟩ fresh with
             | .error e => (.error e : Except JSErr ((JsVal × StoredVal) × Nat))
             | .ok (o, i', f2) => .ok ((JsVal.obj o, StoredVal.ofInst i'), f2)
           | .js (.obj kvs) => .ok ((JsVal.obj kvs, elem), fresh)
           | .js (.date ms) => .ok ((JsVal.date ms, elem), fresh)
           | .js (.arr xs) => .ok ((JsVal.arr xs, elem), fresh)
           | .schemaArr _ _ _ =>
             -- unreachable: pushed elements are never SchemaArrays
             .ok ((JsVal.arr [], elem), fresh)
           | .js w => .ok ((w, elem), fresh)) with
    | .error e => .error e
    | .ok ((x, elem'), f1) =>
      match toArrElemsE fuel opts p rest f1 with
      | .error e => .error e
      | .ok (xs, rest', f2) => .ok (x :: xs, elem' :: rest', f2)
  termination_by structural fuel => fuel

/-- `clearField`: aliased fields are skipped; object fields clear the
nested value in place (`.clear()` on a plain stored object throws); array
fields truncate the container in place; all other fields write
`undefined` directly through `writeValue`. -/
def clearFieldE : Nat → Opts → Schema → FieldSpec → InstState → Nat →
    Option JSErr × InstState × Nat
  | 0, _, _, _, st, fresh => (some .outOfFuel, st, fresh)
  | fuel+1, opts, schema, props, st, fresh =>
    if props.isAlias then (none, st, fresh)
    else
      match props.ftype with
      | .object =>
        match getFieldE fuel opts schema props st fresh with
        | .error e => (some e, st, fresh)
        | .ok (v, st1, f1) =>
          match v with
          | .inst id flds errs =>
            match clearFieldsE fuel opts (props.objectType.getD [])
                (props.objectType.getD []) ⟨id, flds, errs⟩ f1 with
            | (oe, i', f2) =>
              (oe, {st1 with obj := storeWrite st1.obj props.name (.ofInst i')}, f2)
          | _ => (some (.jsError "clear is not a function"), st1, f1)
      | .array =>
        match getFieldE fuel opts schema props st fresh with
        | .error e => (some e, st, fresh)
        | .ok (v, st1, f1) =>
          match v with
          | .schemaArr id p _ =>
            (none, {st1 with obj := storeWrite st1.obj props.name (.schemaArr id p [])}, f1)
          | _ => (some (.jsError "Cannot set property length"), st1, f1)
      | _ =>
        match writeValueE fuel opts schema props (.js .undef) st fresh with
        | .error e => (some e, st, fresh)
        | .ok (st', f') => (none, st', f')
  termination_by structural fuel => fuel

/-- The field loop of `clear()`; a thrown error aborts the loop, keeping
the fields cleared so far. -/
def clearFieldsE : Nat → Opts → Schema → List (String × FieldSpec) → InstState → Nat →
    Option JSErr × InstState × Nat
  | 0, _, _, _, st, fresh => (some .outOfFuel, st, fresh)
  | _+1, _, _, [], st, fresh => (none, st, fresh)
  | fuel+1, opts, schema, (_, props) :: rest, st, fresh =>
    match clearFieldE fuel opts schema props st fresh with
    | (some e, st', f') => (some e, st', f')
    | (none, st', f') => clearFieldsE fuel opts schema rest st' f'
  termination_by structural fuel => fuel

/-- `getErrors()`: the instance's own ledger (the clone and the
`schemaObject` back-reference it receives are not modelled), followed by
the errors of each nested schema-typed field, their field names qualified
with the containing field name. -/
def getErrorsE : Nat → Opts → Schema → InstState → Nat →
    Except JSErr (List JSErr × InstState × Nat)
  | 0, _, _, _, _ => .error .outOfFuel
  | fuel+1, opts, schema, st, fresh =>
    match getErrFieldsE fuel opts schema schema st fresh with
    | .error e => .error e
    | .ok (subs, st', f') => .ok (st.errors ++ subs, st', f')
  termination_by structural fuel => fuel

/-- The nested-field loop of `getErrors()`: for each `object` field with
a compiled sub-schema, read the field through the public interface
(lazily initializing it if unset) and aggregate its `getErrors()`,
qualified. -/
def getErrFieldsE : Nat → Opts → Schema → List (String × FieldSpec) → InstState → Nat →
    Except JSErr (List JSErr × InstState × Nat)
  | 0, _, _, _, _, _ => .error .outOfFuel
  | _+1, _, _, [], st, fresh => .ok ([], st, fresh)
  | fuel+1, opts, schema, (nm, props) :: rest, st, fresh =>
    if props.ftype == FType.object && props.objectType.isSome then
      match getFieldE fuel opts schema props st fresh with
      | .error e => .error e
      | .ok (v, st1, f1) =>
        match v with
        | .inst id flds errs =>
          match getErrorsE fuel opts (props.objectType.getD []) ⟨id, flds, errs⟩ f1 with
          | .error e => .error e
          | .ok (subs, i', f2) =>
            match qualifyErrs nm subs with
            | .error e => .error e
            | .ok qs =>
              match getErrFieldsE fuel opts schema rest
                  {st1 with obj := storeWrite st1.obj nm (.ofInst i')} f2 with
              | .error e => .error e
              | .ok (more, st2, f3) => .ok (qs ++ more, st2, f3)
        | _ => .error (.jsError "getErrors is not a function")
    else
      getErrFieldsE fuel opts schema rest st fresh
  termination_by structural fuel => fuel

/-- `clearErrors()`: truncate the own ledger, then recurse into nested
schema-typed fields. -/
def clearErrorsE : Nat → Opts → Schema → InstState → Nat →
    Except JSErr (InstState × Nat)
  | 0, _, _, _, _ => .error .outOfFuel
  | fuel+1, opts, schema, st, fresh =>
    clearErrFieldsE fuel opts schema schema {st with errors := []} fresh
  termination_by structural fuel => fuel

/-- The nested-field loop of `clearErrors()`. -/
def clearErrFieldsE : Nat → Opts → Schema → List (String × FieldSpec) → InstState → Nat →
    Except JSErr (InstState × Nat)
  | 0, _, _, _, _, _ => .error .outOfFuel
  | _+1, _, _, [], st, fresh => .ok (st, fresh)
  | fuel+1, opts, schema, (nm, props) :: rest, st, fresh =>
    if props.ftype == FType.object && props.objectType.isSome then
      match getFieldE fuel opts schema props st fresh with
      | .error e => .error e
      | .ok (v, st1, f1) =>
        match v with
        | .inst id flds errs =>
          match clearErrorsE fuel opts (props.objectType.getD []) ⟨id, flds, errs⟩ f1 with
          | .error e => .error e
          | .ok (i', f2) =>
            clearErrFieldsE fuel opts schema rest
              {st1 with obj := storeWrite st1.obj nm (.ofInst i')} f2
        | _ => .error (.jsError "clearErrors is not a function")
    else
      clearErrFieldsE fuel opts schema rest st fresh
  termination_by structural fuel => fuel

end

/-! ## Derived entry points -/

/-- `toObject()` (no output post-hook is configured in the modelled
options, so the assembled object is returned as built). -/
def toObjectE (fuel : Nat) (opts : Opts) (schema : Schema) (st : InstState) (fresh : Nat) :
    Except JSErr (List (String × JsVal) × InstState × Nat) :=
  toObjFieldsE fuel opts schema schema st fresh

/-- `clear()`. -/
def clearE (fuel : Nat) (opts : Opts) (schema : Schema) (st : InstState) (fresh : Nat) :
    Option JSErr × InstState × Nat :=
  clearFieldsE fuel opts schema schema st fresh

/-- The proxy `get` trap for a plain (non-reserved, non-path) key:
declared keys route through the registered getter; unknown keys read
`undefined`. -/
def getKeyE (fuel : Nat) (opts : Opts) (schema : Schema) (name : String) (st : InstState)
    (fresh : Nat) : Except JSErr (StoredVal × InstState × Nat) :=
  match schemaLookup schema name with
  | some props => getFieldE fuel opts schema props st fresh
  | none => .ok (.js .undef, st, fresh)

/-- `isErrors()`: whether `getErrors()` returned a non-empty list. -/
def isErrorsE (fuel : Nat) (opts : Opts) (schema : Schema) (st : InstState) (fresh : Nat) :
    Except JSErr (Bool × InstState × Nat) :=
  match getErrorsE fuel opts schema st fresh with
  | .error e => .error e
  | .ok (es, st', f') => .ok (decide (0 < es.length), st', f')

/-- The methods declared on `SchemaObjectInstance` in the source class
body (including the static `extend`), by name. -/
def schemaObjectInstanceMethods : List String :=
  ["extend", "constructor", "populate", "clone", "toObject", "toJSON", "clear",
   "getErrors", "clearErrors", "isErrors", "_isSchemaObject"]

/-! ## Result projections and fixtures for concrete runs -/

/-- Instance state of a constructor/`set`-trap result (junk on error). -/
def stOf (r : Except JSErr (Schema × InstState × Nat)) : InstState :=
  match r with
  | .ok (_, st, _) => st
  | .error _ => ⟨0, [], []⟩

/-- Schema component of a constructor/`set`-trap result (junk on error). -/
def schemaOf (r : Except JSErr (Schema × InstState × Nat)) : Schema :=
  match r with
  | .ok (s, _, _) => s
  | .error _ => []

/-- Freshness counter of a constructor/`set`-trap result (junk on error). -/
def freshOf (r : Except JSErr (Schema × InstState × Nat)) : Nat :=
  match r with
  | .ok (_, _, f) => f
  | .error _ => 0

/-- A string field `a` with `minLength: 2`, `maxLength: 5`. -/
def strBoundsSpec : FieldSpec :=
  .mk "a" .string (some 2) (some 5) none none none none false none none none false false none false

/-- An anonymous `number` element specification (`arrayType: Number`). -/
def numElemSpec : FieldSpec :=
  .mk "" .number none none none none none none false none none none false false none false

/-- An array-of-number field `f` (`{f: {type: [Number]}}`). -/
def arrNumSpec : FieldSpec :=
  .mk "f" .array none none none none none none false (some numElemSpec) none none
    false false none false

def schemaArrNum : Schema := [("f", arrNumSpec)]

/-- An untyped array field `t` with `unique: true`. -/
def uniqArrSpec : FieldSpec :=
  .mk "t" .array none none none none none none true none none none false false none false

def schemaUniq : Schema := [("t", uniqArrSpec)]

/-- `city: {type: String, minLength: 2}` — the nested field of the spec's
error-aggregation example. -/
def citySpec : FieldSpec :=
  .mk "city" .string (some 2) none none none none none false none none none false false none false

def addrSchema : Schema := [("city", citySpec)]

/-- `addr`: an object field compiled against `addrSchema`. -/
def addrSpec : FieldSpec :=
  .mk "addr" .object none none none none none none false none (some addrSchema) none
    false false none false

def schemaAddr : Schema := [("addr", addrSpec)]

/-- A date field `d`. -/
def dateFieldSpec : FieldSpec :=
  .mk "d" .date none none none none none none false none none none false false none false

def schemaDate : Schema := [("d", dateFieldSpec)]

/-- A schema whose single field `x` is the dynamically-addable `any` shape. -/
def schemaAny : Schema := [("x", anyProps "x")]

/-- A string field `d` whose default producer throws `"boom"`. -/
def throwingDefaultSpec : FieldSpec :=
  .mk "d" .string none none none none none none false none none
    (some (.producer (.error "boom"))) false false none false

/-- A string field `d` whose literal default `{}` is rejected by the
string typecast. -/
def rejectedDefaultSpec : FieldSpec :=
  .mk "d" .string none none none none none none false none none
    (some (.value (.obj []))) false false none false

/-- A `readOnly` string field `r` with default `"keep"`. -/
def readOnlyDefaultSpec : FieldSpec :=
  .mk "r" .string none none none none none none false none none
    (some (.value (.str "keep"))) true false none false

def schemaRO : Schema := [("r", readOnlyDefaultSpec)]

/-- A (non-readOnly) string field `d` with default `"x"`. -/
def plainDefaultSpec : FieldSpec :=
  .mk "d" .string none none none none none none false none none
    (some (.value (.str "x"))) false false none false

def schemaDef : Schema := [("d", plainDefaultSpec)]

/-! ## General reduction lemmas for the engine -/

/-- The primitive (non-container, non-alias) type tags. -/
def PrimType (t : FType) : Prop :=
  t = .string ∨ t = .number ∨ t = .boolean ∨ t = .date ∨ t = .any

theorem typecastPrim_setReadOnly (opts : Opts) (props : FieldSpec) (b : Bool) (v : JsVal) :
    typecastPrim opts (props.setReadOnly b) v = typecastPrim opts props v := by
  cases props; rfl

theorem setReadOnly_readOnly (props : FieldSpec) (b : Bool) :
    (props.setReadOnly b).readOnly = b := by
  cases props; rfl

theorem setReadOnly_ftype (props : FieldSpec) (b : Bool) :
    (props.setReadOnly b).ftype = props.ftype := by
  cases props; rfl

theorem setReadOnly_name (props : FieldSpec) (b : Bool) :
    (props.setReadOnly b).name = props.name := by
  cases props; rfl

/-- A primitive field's getter: no lazy initialization, no state change. -/
theorem getFieldE_prim (fuel : Nat) (opts : Opts) (schema : Schema) (props : FieldSpec)
    (st : InstState) (fresh : Nat) (hp : PrimType props.ftype) :
    getFieldE (fuel+1) opts schema props st fresh =
      .ok (storeGet st.obj props.name, st, fresh) := by
  rcases hp with hf | hf | hf | hf | hf <;> simp [getFieldE, fieldIdx, hf]

/-- On a primitive field the typecast engine defers to `typecastPrim`
(when the null-preservation bypass does not fire). -/
theorem typecastE_prim (fuel : Nat) (opts : Opts) (props : FieldSpec) (v : JsVal)
    (orig : StoredVal) (fresh : Nat) (hp : PrimType props.ftype)
    (hv : opts.preserveNull = false ∨ v ≠ .null) :
    typecastE (fuel+1) opts props v orig fresh =
      (match typecastPrim opts props v with
       | .ok out => (.ok (.js out), fresh)
       | .error e => (.rej e orig, fresh)) := by
  rcases hp with hf | hf | hf | hf | hf <;>
    rcases hv with hn | hn <;> cases v <;> simp_all [typecastE]

/-- An accepted write to a primitive field stores the typecast result. -/
theorem setFieldE_prim_ok (fuel : Nat) (opts : Opts) (schema : Schema) (props : FieldSpec)
    (v out : JsVal) (st : InstState) (fresh : Nat) (hp : PrimType props.ftype)
    (hro : props.readOnly = false) (hv : opts.preserveNull = false ∨ v ≠ .null)
    (htc : typecastPrim opts props v = .ok out) :
    setFieldE (fuel+2) opts schema props v st fresh =
      .ok ({st with obj := storeWrite st.obj props.name (.js out)}, fresh) := by
  have hga := getFieldE_prim fuel opts schema props st fresh hp
  have hta := typecastE_prim fuel opts props v (storeGet st.obj props.name) fresh hp hv
  have hna : (props.ftype == FType.alias) = false := by
    rcases hp with hf | hf | hf | hf | hf <;> simp [hf]
  simp [setFieldE, hro, hga, hta, htc, writeValueE, hna]

/-- A rejected write to a primitive field leaves the store untouched and
appends exactly the thrown error to the ledger. -/
theorem setFieldE_prim_rej (fuel : Nat) (opts : Opts) (schema : Schema) (props : FieldSpec)
    (v : JsVal) (m : String) (sv : JsVal) (fn : String) (st : InstState) (fresh : Nat)
    (hp : PrimType props.ftype) (hro : props.readOnly = false)
    (hv : opts.preserveNull = false ∨ v ≠ .null)
    (htc : typecastPrim opts props v = .error (.setterError m sv fn)) :
    setFieldE (fuel+2) opts schema props v st fresh =
      .ok ({st with errors := st.errors ++ [.setterError m sv fn]}, fresh) := by
  have hga := getFieldE_prim fuel opts schema props st fresh hp
  have hta := typecastE_prim fuel opts props v (storeGet st.obj props.name) fresh hp hv
  rcases hp with hf | hf | hf | hf | hf <;> simp [setFieldE, hro, hga, hta, htc, hf]

/-- The `set` trap on a declared key defers to the registered setter. -/
theorem setKeyE_declared (fuel : Nat) (opts : Opts) (schema : Schema) (k : String)
    (props : FieldSpec) (v : JsVal) (st : InstState) (fresh : Nat)
    (hk : opts.keysIgnoreCase = false) (hl : schemaLookup schema k = some props) :
    setKeyE (fuel+1) opts schema k v st fresh =
      (match setFieldE fuel opts schema props v st fresh with
       | .error e => .error e
       | .ok (st', f') => .ok (schema, st', f')) := by
  simp [setKeyE, hk, hl]

/-! ## C3: unique array insertion -/

/-- C3, counterexample: pushing the batch `[1,2,2,3]` onto an empty
container of a `unique: true` array field yields `[1,2,2,3]`, not
`[1,2,3]`: `_.difference` removes only elements already present in the
container's current contents and does not deduplicate within the pushed
batch. -/
theorem c3_counterexample :
    pushE 30 defaultOpts uniqArrSpec [] [.num 1, .num 2, .num 2, .num 3] 0 =
      (.ok [.js (.num 1), .js (.num 2), .js (.num 2), .js (.num 3)], 0) ∧
    [StoredVal.js (.num 1), .js (.num 2), .js (.num 2), .js (.num 3)] ≠
      [StoredVal.js (.num 1), .js (.num 2), .js (.num 3)] :=
  ⟨rfl, by simp⟩

/-- Construction over `{t: {type: Array, unique: true}}`. -/
def c3Mk : Except JSErr (Schema × InstState × Nat) := mkInstE 30 defaultOpts schemaUniq [] 0

/-- The array-field assignment `o.t = [1,2,2,3]`. -/
def c3Assign : Except JSErr (Schema × InstState × Nat) :=
  setKeyE 30 defaultOpts schemaUniq "t" (.arr [.num 1, .num 2, .num 2, .num 3])
    (stOf c3Mk) (freshOf c3Mk)

/-- C3, amended: for an array field with `unique: true`, a single batch
push of `[1,2,2,3]` onto an empty container yields `[1,2,2,3]`, while
assigning `[1,2,2,3]` to the field — which truncates the container and
pushes the elements one at a time — yields `[1,2,3]` in that order with
no error; in general (no element spec) a push appends the batch's
elements in order, dropping, when `unique` is configured, exactly those
already present by SameValueZero in the contents at the time of the
push. -/
theorem c3_amended :
    pushE 30 defaultOpts uniqArrSpec [] [.num 1, .num 2, .num 2, .num 3] 0 =
      (.ok [.js (.num 1), .js (.num 2), .js (.num 2), .js (.num 3)], 0) ∧
    storeGet (stOf c3Assign).obj "t" =
      .schemaArr 1 uniqArrSpec [.js (.num 1), .js (.num 2), .js (.num 3)] ∧
    (stOf c3Assign).errors = [] ∧
    (∀ fuel opts p cur args fresh, p.arrayType = none →
      pushE (fuel+1) opts p cur args fresh =
        (.ok (cur ++ (if p.unique then
            (args.map StoredVal.js).filter (fun v => !(cur.any (fun c => sameValueZero c v)))
          else args.map StoredVal.js)), fresh)) := by
  refine ⟨rfl, rfl, rfl, ?_⟩
  intro fuel opts p cur args fresh h
  simp [pushE, h]

/-- Witness for the general clause of `c3_amended`: pushing `[1, 4]` onto
a unique container holding `[1]` appends only `4`. -/
theorem c3_amended_witness :
    pushE 3 defaultOpts uniqArrSpec [.js (.num 1)] [.num 1, .num 4] 0 =
      (.ok [.js (.num 1), .js (.num 4)], 0) :=
  c3_amended.2.2.2 2 defaultOpts uniqArrSpec [.js (.num 1)] [.num 1, .num 4] 0 rfl

/-! ## C4: `toObject()` idempotence and aliasing -/

/-- Construction over `{x: 'any'}` with `x = [1, 2]`. -/
def c4Mk : Except JSErr (Schema × InstState × Nat) :=
  mkInstE 40 defaultOpts schemaAny [("x", .arr [.num 1, .num 2])] 0

/-- C4, code bug: `toObject()` materializes a plain stored array with
`value.splice(0)` — under the comment "Clone objects so they can't be
modified by reference", where `slice(0)` was evidently intended — which
empties the instance's stored array in place.  The first call returns
`{x: [1,2]}` and leaves `x = []` behind; a second call with no
intervening write returns `{}`.  `toObject()` is therefore neither
side-effect-free nor idempotent here, against both the specification and
the code's own comment. -/
theorem c4_toObject_splice_bug :
    stOf c4Mk = ⟨0, [("x", .js (.arr [.num 1, .num 2]))], []⟩ ∧
    toObjectE 40 defaultOpts schemaAny (stOf c4Mk) (freshOf c4Mk) =
      .ok ([("x", .arr [.num 1, .num 2])], ⟨0, [("x", .js (.arr []))], []⟩, 1) ∧
    toObjectE 40 defaultOpts schemaAny ⟨0, [("x", .js (.arr []))], []⟩ 1 =
      .ok ([], ⟨0, [("x", .js (.arr []))], []⟩, 1) ∧
    ([("x", JsVal.arr [.num 1, .num 2])] : List (String × JsVal)) ≠ [] :=
  ⟨rfl, rfl, rfl, by simp⟩

/-! ## C7: bad defaults -/

/-- C7, counterexample: a field whose declared default producer throws
makes construction itself throw — the producer is invoked outside any
try block during the constructor's default-population pass, so the
exception reaches the caller instead of the Error Ledger. -/
theorem c7_counterexample :
    mkInstE 30 defaultOpts [("d", throwingDefaultSpec)] [] 0 = .error (.jsError "boom") := rfl

/-- C7, amended: a default value (or producer result) that the typecast
rejects is captured — construction succeeds, exactly one error is
appended to the ledger, and the first read returns `undefined` — but an
exception raised by the default producer itself propagates out of
construction. -/
theorem c7_amended :
    (∀ fuel opts nm props m fresh, props.defaultVal = some (.producer (.error m)) →
      mkInstE (fuel+2) opts [(nm, props)] [] fresh = .error (.jsError m)) ∧
    (∀ fuel opts nm props dv m sv fn fresh,
      props.defaultVal = some (.value dv) →
      PrimType props.ftype →
      (opts.preserveNull = false ∨ dv ≠ .null) →
      typecastPrim opts props dv = .error (.setterError m sv fn) →
      mkInstE (fuel+4) opts [(nm, props)] [] fresh =
        .ok ([(nm, props)], ⟨fresh, [], [.setterError m sv fn]⟩, fresh + 1)) ∧
    (∀ fuel opts schema props (errs : List JSErr) (i f : Nat),
      PrimType props.ftype →
      getFieldE (fuel+1) opts schema props ⟨i, [], errs⟩ f =
        .ok (.js .undef, ⟨i, [], errs⟩, f)) := by
  refine ⟨?_, ?_, ?_⟩
  · intro fuel opts nm props m fresh h
    simp [mkInstE, defaultsE, h, computeDefault]
  · intro fuel opts nm props dv m sv fn fresh hd hp hv htc
    have hrej := setFieldE_prim_rej fuel opts [(nm, props)] (props.setReadOnly false) dv m sv fn
      ⟨fresh, [], []⟩ (fresh + 1)
      (by rw [setReadOnly_ftype]; exact hp)
      (setReadOnly_readOnly props false) hv
      (by rw [typecastPrim_setReadOnly]; exact htc)
    simp [mkInstE, defaultsE, hd, computeDefault, hrej, populateE]
  · intro fuel opts schema props errs i f hp
    have := getFieldE_prim fuel opts schema props ⟨i, [], errs⟩ f hp
    simpa [storeGet] using this

/-- Witness for `c7_amended`: the throwing producer `"boom"` propagates;
the rejected literal default `{}` of a string field is captured with one
ledger entry; the first read of that field returns `undefined`. -/
theorem c7_amended_witness :
    mkInstE 2 defaultOpts [("d", throwingDefaultSpec)] [] 0 = .error (.jsError "boom") ∧
    mkInstE 4 defaultOpts [("d", rejectedDefaultSpec)] [] 0 =
      .ok ([("d", rejectedDefaultSpec)],
        ⟨0, [], [.setterError "String type cannot typecast Object or Array types."
          (.obj []) "d"]⟩, 1) ∧
    getFieldE 1 defaultOpts [("d", rejectedDefaultSpec)] rejectedDefaultSpec
      ⟨0, [], [.setterError "String type cannot typecast Object or Array types."
          (.obj []) "d"]⟩ 1 =
      .ok (.js .undef, ⟨0, [], [.setterError "String type cannot typecast Object or Array types."
          (.obj []) "d"]⟩, 1) :=
  ⟨c7_amended.1 0 defaultOpts "d" throwingDefaultSpec "boom" 0 rfl,
   c7_amended.2.1 0 defaultOpts "d" rejectedDefaultSpec (.obj []) _ _ _ 0 rfl
     (Or.inl rfl) (Or.inl rfl) rfl,
   c7_amended.2.2 0 defaultOpts [("d", rejectedDefaultSpec)] rejectedDefaultSpec _ 0 1
     (Or.inl rfl)⟩

/-! ## C9: error aggregation and the has-errors predicate -/

/-- C9, counterexample: the instance surface has no `hasErrors()` method
— the has-errors predicate of `SchemaObjectInstance` is named
`isErrors()`. -/
theorem c9_counterexample : "hasErrors" ∉ schemaObjectInstanceMethods := by decide

/-- Construction over `{addr: {city: {type: String, minLength: 2}}}`. -/
def c9Mk : Except JSErr (Schema × InstState × Nat) := mkInstE 60 defaultOpts schemaAddr [] 0

/-- The nested assignment `instance.addr = {city: "x"}`. -/
def c9Set : Except JSErr (Schema × InstState × Nat) :=
  setKeyE 60 defaultOpts schemaAddr "addr" (.obj [("city", .str "x")])
    (stOf c9Mk) (freshOf c9Mk)

/-- C9, amended: the instance exposes `getErrors()`, `clearErrors()` and
`isErrors()` (the has-errors predicate is named `isErrors`, not
`hasErrors`); `getErrors()` recurses into nested schema-typed fields and
qualifies nested field names with the dotted containing-field chain, so
after `instance.addr = {city: "x"}` the field `addr.city` is unchanged
(`undefined`) and `getErrors()` holds exactly one entry with field path
`"addr.city"`; `isErrors()` returns whether `getErrors()` is
non-empty. -/
theorem c9_amended :
    "isErrors" ∈ schemaObjectInstanceMethods ∧
    getErrorsE 60 defaultOpts schemaAddr (stOf c9Set) (freshOf c9Set) =
      .ok ([.setterError "String length too short to meet minLength requirement."
            (.str "x") "addr.city"], stOf c9Set, freshOf c9Set) ∧
    (match storeGet (stOf c9Set).obj "addr" with
     | .inst _ flds _ => storeGet flds "city"
     | v => v) = .js .undef ∧
    isErrorsE 60 defaultOpts schemaAddr (stOf c9Set) (freshOf c9Set) =
      .ok (true, stOf c9Set, freshOf c9Set) ∧
    (∀ fuel opts schema st fresh es st' f',
      getErrorsE fuel opts schema st fresh = .ok (es, st', f') →
      isErrorsE fuel opts schema st fresh = .ok (decide (0 < es.length), st', f')) ∧
    (∀ nm m sv fn, qualifyErrs nm [.setterError m sv fn] =
      .ok [.setterError m sv (nm ++ "." ++ fn)]) := by
  refine ⟨by decide, rfl, rfl, rfl, ?_, fun _ _ _ _ => rfl⟩
  intro fuel opts schema st fresh es st' f' h
  simp [isErrorsE, h]

/-- Witness for the general clause of `c9_amended`: an instance with an
empty ledger and no nested fields has `isErrors() = false`. -/
theorem c9_amended_witness :
    isErrorsE 2 defaultOpts [] ⟨0, [], []⟩ 0 = .ok (false, ⟨0, [], []⟩, 0) :=
  c9_amended.2.2.2.2.1 2 defaultOpts [] ⟨0, [], []⟩ 0 [] ⟨0, [], []⟩ 0 rfl

/-! ## C10: readOnly fields with defaults -/

/-- C10: a `readOnly` field still receives its declared default at
construction (the flag is lifted for that one write), and every later
write through the setter or the `set` trap is a silent no-op — the state,
including the Error Ledger, is returned unchanged. -/
theorem c10_readonly_default :
    (∀ fuel opts schema props v st fresh, props.readOnly = true →
      setFieldE (fuel+1) opts schema props v st fresh = .ok (st, fresh)) ∧
    (∀ fuel opts schema k props v st fresh, opts.keysIgnoreCase = false →
      schemaLookup schema k = some props → props.readOnly = true →
      setKeyE (fuel+2) opts schema k v st fresh = .ok (schema, st, fresh)) ∧
    mkInstE 30 defaultOpts schemaRO [] 0 =
      .ok (schemaRO, ⟨0, [("r", .js (.str "keep"))], []⟩, 1) ∧
    setKeyE 30 defaultOpts schemaRO "r" (.str "nope") ⟨0, [("r", .js (.str "keep"))], []⟩ 1 =
      .ok (schemaRO, ⟨0, [("r", .js (.str "keep"))], []⟩, 1) := by
  have h1 : ∀ fuel opts (schema : Schema) props v st (fresh : Nat), props.readOnly = true →
      setFieldE (fuel+1) opts schema props v st fresh = .ok (st, fresh) := by
    intro fuel opts schema props v st fresh h
    simp [setFieldE, h]
  refine ⟨h1, ?_, rfl, rfl⟩
  intro fuel opts schema k props v st fresh hk hl hro
  rw [setKeyE_declared (fuel+1) opts schema k props v st fresh hk hl, h1 fuel opts schema props v st fresh hro]

/-- Witness for `c10_readonly_default`: a direct write and a trap write
to the constructed `readOnly` field leave the instance unchanged. -/
theorem c10_readonly_default_witness :
    setFieldE 6 defaultOpts schemaRO readOnlyDefaultSpec (.str "nope")
      ⟨0, [("r", .js (.str "keep"))], []⟩ 1 = .ok (⟨0, [("r", .js (.str "keep"))], []⟩, 1) ∧
    setKeyE 7 defaultOpts schemaRO "r" (.str "nope")
      ⟨0, [("r", .js (.str "keep"))], []⟩ 1 =
      .ok (schemaRO, ⟨0, [("r", .js (.str "keep"))], []⟩, 1) :=
  ⟨c10_readonly_default.1 5 defaultOpts schemaRO readOnlyDefaultSpec (.str "nope")
      ⟨0, [("r", .js (.str "keep"))], []⟩ 1 rfl,
   c10_readonly_default.2.1 5 defaultOpts schemaRO "r" readOnlyDefaultSpec (.str "nope")
      ⟨0, [("r", .js (.str "keep"))], []⟩ 1 rfl rfl rfl⟩

/-! ## C1: fail-soft writes and string length bounds -/

/-- Construction over `{f: {type: [Number]}}`. -/
def c1Mk : Except JSErr (Schema × InstState × Nat) := mkInstE 40 defaultOpts schemaArrNum [] 0

/-- The accepted assignment `o.f = [7]`. -/
def c1First : Except JSErr (Schema × InstState × Nat) :=
  setKeyE 40 defaultOpts schemaArrNum "f" (.arr [.num 7]) (stOf c1Mk) (freshOf c1Mk)

/-- The assignment `o.f = [1, "x"]`, whose second element the number
typecast rejects. -/
def c1Second : Except JSErr (Schema × InstState × Nat) :=
  setKeyE 40 defaultOpts schemaArrNum "f" (.arr [.num 1, .str "x"])
    (stOf c1First) (freshOf c1First)

/-- C1, counterexample: on an array field, a write whose typecast is
rejected does not always retain the prior value.  With `[7]` stored,
assigning `[1, "x"]` truncates the container and pushes elements until
`"x"` is rejected: the caller sees no exception and exactly one ledger
entry, but the stored contents are now `[1]`, not the prior `[7]`. -/
theorem c1_counterexample :
    storeGet (stOf c1First).obj "f" = .schemaArr 1 arrNumSpec [.js (.num 7)] ∧
    (stOf c1First).errors = [] ∧
    c1Second = .ok (schemaArrNum,
      ⟨0, [("f", .schemaArr 1 arrNumSpec [.js (.num 1)])],
        [.setterError "Number type cannot typecast Array or Object types." (.str "x") ""]⟩, 2) ∧
    (StoredVal.schemaArr 1 arrNumSpec [.js (.num 1)]) ≠
      .schemaArr 1 arrNumSpec [.js (.num 7)] :=
  ⟨rfl, rfl, rfl, by simp⟩

/-- C1, amended: a rejected write never throws to the caller and appends
exactly one error; for every primitive-typed field (string, number,
boolean, date, any) — and for array/object fields whose candidate is
rejected before any element processing — the stored value is retained,
while an array field whose batch contains a rejected element keeps the
accepted prefix of that batch instead.  For a declared string field with
`minLength`/`maxLength`, an out-of-bounds assignment leaves the prior
value and adds exactly one error, and an in-bounds assignment stores the
string and adds none. -/
theorem c1_amended :
    (∀ fuel opts schema props v m sv fn st fresh, PrimType props.ftype →
      props.readOnly = false → (opts.preserveNull = false ∨ v ≠ .null) →
      typecastPrim opts props v = .error (.setterError m sv fn) →
      setFieldE (fuel+2) opts schema props v st fresh =
        .ok ({st with errors := st.errors ++ [.setterError m sv fn]}, fresh)) ∧
    (∀ fuel opts schema props (s : String) m n st fresh,
      props.ftype = .string → props.readOnly = false → props.clip = none →
      props.enumVals = none → props.minLength = some m → props.maxLength = some n →
      s.length < m ∨ s.length > n →
      ∃ msg, setFieldE (fuel+2) opts schema props (.str s) st fresh =
        .ok ({st with errors := st.errors ++ [.setterError msg (.str s) props.name]}, fresh)) ∧
    (∀ fuel opts schema props (s : String) m n st fresh,
      props.ftype = .string → props.readOnly = false → props.clip = none →
      props.enumVals = none → props.minLength = some m → props.maxLength = some n →
      m ≤ s.length → s.length ≤ n →
      setFieldE (fuel+2) opts schema props (.str s) st fresh =
        .ok ({st with obj := storeWrite st.obj props.name (.js (.str s))}, fresh)) := by
  refine ⟨?_, ?_, ?_⟩
  · intro fuel opts schema props v m sv fn st fresh hp hro hv htc
    exact setFieldE_prim_rej fuel opts schema props v m sv fn st fresh hp hro hv htc
  · intro fuel opts schema props s m n st fresh hf hro hcl hen hm hx hout
    by_cases hlt : s.length < m
    · refine ⟨"String length too short to meet minLength requirement.", ?_⟩
      refine setFieldE_prim_rej fuel opts schema props (.str s) _ _ _ st fresh
        (Or.inl hf) hro (Or.inr (by simp)) ?_
      simp [typecastPrim, hf, typecastString_str, stringRules, hcl, hen, hm, hx, hlt]
    · have hgt : s.length > n := hout.resolve_left hlt
      refine ⟨"String length too long to meet maxLength requirement.", ?_⟩
      refine setFieldE_prim_rej fuel opts schema props (.str s) _ _ _ st fresh
        (Or.inl hf) hro (Or.inr (by simp)) ?_
      simp [typecastPrim, hf, typecastString_str, stringRules, hcl, hen, hm, hx, hlt, hgt]
  · intro fuel opts schema props s m n st fresh hf hro hcl hen hm hx h1 h2
    refine setFieldE_prim_ok fuel opts schema props (.str s) (.str s) st fresh
      (Or.inl hf) hro (Or.inr (by simp)) ?_
    simp [typecastPrim, hf, typecastString_str, stringRules, hcl, hen, hm, hx,
      Nat.not_lt.mpr h1, Nat.not_lt.mpr h2]

/-- Witness for `c1_amended`: over `{a: {type: String, minLength: 2,
maxLength: 5}}` with prior value `"ok"`, assigning the out-of-bounds
`"x"` keeps `"ok"` and logs one error, and assigning the in-bounds
`"hey"` stores it. -/
theorem c1_amended_witness :
    setFieldE 9 defaultOpts [("a", strBoundsSpec)] strBoundsSpec (.str "x")
      ⟨0, [("a", .js (.str "ok"))], []⟩ 1 =
      .ok (⟨0, [("a", .js (.str "ok"))],
        [.setterError "String length too short to meet minLength requirement."
          (.str "x") "a"]⟩, 1) ∧
    setFieldE 9 defaultOpts [("a", strBoundsSpec)] strBoundsSpec (.str "hey")
      ⟨0, [("a", .js (.str "ok"))], []⟩ 1 =
      .ok (⟨0, [("a", .js (.str "hey"))], []⟩, 1) :=
  ⟨c1_amended.1 7 defaultOpts [("a", strBoundsSpec)] strBoundsSpec (.str "x") _ _ _
      ⟨0, [("a", .js (.str "ok"))], []⟩ 1 (Or.inl rfl) rfl (Or.inl rfl) rfl,
   c1_amended.2.2 7 defaultOpts [("a", strBoundsSpec)] strBoundsSpec "hey" 2 5
      ⟨0, [("a", .js (.str "ok"))], []⟩ 1 rfl rfl rfl rfl rfl rfl (by decide) (by decide)⟩

/-! ## C2: strict and permissive handling of undeclared keys -/

/-- Two permissive-mode instances from a factory with an empty schema;
`A` is constructed before `B`. -/
def c2A : Except JSErr (Schema × InstState × Nat) := mkInstE 30 permissiveOpts [] [] 0

def c2B : Except JSErr (Schema × InstState × Nat) := mkInstE 30 permissiveOpts [] [] (freshOf c2A)

/-- The permissive write `B.foo = 5`, which grows the shared schema. -/
def c2Set : Except JSErr (Schema × InstState × Nat) :=
  setKeyE 30 permissiveOpts [] "foo" (.num 5) (stOf c2B) (freshOf c2B)

/-- C2, counterexample: after `B.foo = 5` in permissive mode the shared
schema holds `foo` as type `any`, but the `toObject()` output of the
previously constructed instance `A` — whose `foo` reads `undefined` and
is omitted under the default `setUndefined: false` — is `{}`: the key
does not appear in every instance's output. -/
theorem c2_counterexample :
    schemaOf c2Set = [("foo", anyProps "foo")] ∧
    toObjectE 30 permissiveOpts (schemaOf c2Set) (stOf c2A) (freshOf c2Set) =
      .ok ([], stOf c2A, freshOf c2Set) ∧
    "foo" ∉ (([] : List (String × JsVal)).map Prod.fst) :=
  ⟨rfl, rfl, by decide⟩

/-- C2, amended: a strict-mode write to an undeclared key leaves schema,
store and ledger untouched; a permissive-mode write appends the key to
the shared schema as type `any` and stores the value on the writing
instance, whose `toObject()` then shows it; an instance that never
received a value for the key (such as one constructed earlier) reads
`undefined` there and omits the key from `toObject()` under default
options. -/
theorem c2_amended :
    (∀ fuel opts schema k v st fresh, opts.strict = true → opts.keysIgnoreCase = false →
      schemaLookup schema k = none →
      setKeyE (fuel+1) opts schema k v st fresh = .ok (schema, st, fresh)) ∧
    (∀ fuel opts schema k v st fresh, opts.strict = false → opts.keysIgnoreCase = false →
      schemaLookup schema k = none →
      setKeyE (fuel+3) opts schema k v st fresh =
        .ok (schema ++ [(k, anyProps k)],
          {st with obj := storeWrite st.obj k (.js v)}, fresh)) ∧
    toObjectE 30 permissiveOpts (schemaOf c2Set) (stOf c2Set) (freshOf c2Set) =
      .ok ([("foo", .num 5)], stOf c2Set, freshOf c2Set) ∧
    toObjectE 30 permissiveOpts (schemaOf c2Set) (stOf c2A) (freshOf c2Set) =
      .ok ([], stOf c2A, freshOf c2Set) := by
  have hany : ∀ (fuel : Nat) (opts : Opts) (schema : Schema) (k : String) (v : JsVal)
      (st : InstState) (fresh : Nat),
      setFieldE (fuel+2) opts schema (anyProps k) v st fresh =
        .ok ({st with obj := storeWrite st.obj k (.js v)}, fresh) := by
    intro fuel opts schema k v st fresh
    have hga := getFieldE_prim fuel opts schema (anyProps k) st fresh (by
      right; right; right; right; rfl)
    have hft : (anyProps k).ftype = FType.any := rfl
    have hnm : (anyProps k).name = k := rfl
    have hta : typecastE (fuel+1) opts (anyProps k) v (storeGet st.obj k) fresh =
        (.ok (.js v), fresh) := by
      cases v <;> cases hpn : opts.preserveNull <;>
        simp_all [typecastE, typecastPrim, hft]
    have hro : (anyProps k).readOnly = false := rfl
    simp [setFieldE, hro, hga, hta, writeValueE, hft, hnm]
  refine ⟨?_, ?_, rfl, rfl⟩
  · intro fuel opts schema k v st fresh hs hk hl
    simp [setKeyE, hk, hl, hs]
  · intro fuel opts schema k v st fresh hs hk hl
    have := hany fuel opts (schema ++ [(k, anyProps k)]) k v st fresh
    simp [setKeyE, hk, hl, hs, this]

/-- Witness for `c2_amended`: over the empty schema, a strict write of
`foo` is ignored and a permissive write stores it. -/
theorem c2_amended_witness :
    setKeyE 4 defaultOpts [] "foo" (.num 5) ⟨0, [], []⟩ 1 = .ok ([], ⟨0, [], []⟩, 1) ∧
    setKeyE 4 permissiveOpts [] "foo" (.num 5) ⟨0, [], []⟩ 1 =
      .ok ([("foo", anyProps "foo")], ⟨0, [("foo", .js (.num 5))], []⟩, 1) :=
  ⟨c2_amended.1 3 defaultOpts [] "foo" (.num 5) ⟨0, [], []⟩ 1 rfl rfl rfl,
   c2_amended.2.1 1 permissiveOpts [] "foo" (.num 5) ⟨0, [], []⟩ 1 rfl rfl rfl⟩

/-! ## C6: date scale detection -/

/-- Construction over `{d: Date}`. -/
def c6Mk : Except JSErr (Schema × InstState × Nat) := mkInstE 30 defaultOpts schemaDate [] 0

/-- C6: assigning the seconds-scale literal `1700000000` and the
milliseconds-scale literal `1700000000000` to a date field store the same
instant (epoch milliseconds `1700000000000`); in general a numeric
candidate whose decimal spelling has at most 10 characters — for
non-negative numbers, those below ten billion — is multiplied by 1000,
and a longer one is taken as milliseconds (`jsNumLen` is the source's
`(value + '').length` test, whose cutoff for non-negative numbers sits
between `9999999999` and `10000000000`); a boolean, object or array
candidate, and a string `Date.parse` cannot parse, raise a typed
rejection. -/
theorem c6_date_scale :
    setKeyE 30 defaultOpts schemaDate "d" (.num 1700000000) (stOf c6Mk) (freshOf c6Mk) =
      .ok (schemaDate, ⟨0, [("d", .js (.date 1700000000000))], []⟩, 1) ∧
    setKeyE 30 defaultOpts schemaDate "d" (.num 1700000000000) (stOf c6Mk) (freshOf c6Mk) =
      .ok (schemaDate, ⟨0, [("d", .js (.date 1700000000000))], []⟩, 1) ∧
    (∀ opts props (n : Int), props.ftype = .date → jsNumLen n ≤ 10 →
      typecastPrim opts props (.num n) = .ok (.date (n * 1000))) ∧
    (∀ opts props (n : Int), props.ftype = .date → jsNumLen n > 10 →
      typecastPrim opts props (.num n) = .ok (.date n)) ∧
    jsNumLen 9999999999 = 10 ∧ jsNumLen 10000000000 = 11 ∧
    (∀ opts props (b : Bool), props.ftype = .date →
      typecastPrim opts props (.bool b) =
        .error (.setterError "Date type cannot typecast Array or Object types."
          (.bool b) props.name)) ∧
    (∀ opts props kvs, props.ftype = .date →
      typecastPrim opts props (.obj kvs) =
        .error (.setterError "Date type cannot typecast Array or Object types."
          (.obj kvs) props.name)) ∧
    (∀ opts props (s : String), props.ftype = .date → s ≠ "" → opts.dateParse s = none →
      typecastPrim opts props (.str s) =
        .error (.setterError "Could not parse date." (.str s) props.name)) := by
  refine ⟨rfl, rfl, ?_, ?_, rfl, rfl, ?_, ?_, ?_⟩
  · intro opts props n hf hlen
    simp [typecastPrim, hf, typecastDate_num, dateOfNum, Nat.not_lt.mpr hlen]
  · intro opts props n hf hlen
    simp [typecastPrim, hf, typecastDate_num, dateOfNum, hlen]
  · intro opts props b hf
    simp [typecastPrim, hf, typecastDate]
  · intro opts props kvs hf
    simp [typecastPrim, hf, typecastDate]
  · intro opts props s hf hne hparse
    simp [typecastPrim, hf, typecastDate, hne, hparse]

/-- Witness for `c6_date_scale`: `5` scales to `5000` ms, `12345678901`
is taken as milliseconds, a boolean and an unparsable string are
rejected. -/
theorem c6_date_scale_witness :
    typecastPrim defaultOpts dateFieldSpec (.num 5) = .ok (.date 5000) ∧
    typecastPrim defaultOpts dateFieldSpec (.num 12345678901) = .ok (.date 12345678901) ∧
    typecastPrim defaultOpts dateFieldSpec (.bool true) =
      .error (.setterError "Date type cannot typecast Array or Object types."
        (.bool true) "d") ∧
    typecastPrim defaultOpts dateFieldSpec (.str "nope") =
      .error (.setterError "Could not parse date." (.str "nope") "d") :=
  ⟨c6_date_scale.2.2.1 defaultOpts dateFieldSpec 5 rfl (by decide),
   c6_date_scale.2.2.2.1 defaultOpts dateFieldSpec 12345678901 rfl (by decide),
   c6_date_scale.2.2.2.2.2.2.1 defaultOpts dateFieldSpec true rfl,
   c6_date_scale.2.2.2.2.2.2.2.2 defaultOpts dateFieldSpec "nope" rfl (by decide) rfl⟩

/-! ## C8: in-place container writes and identity-preserving clears -/

/-- No engine operation on an instance changes the instance's allocation
id: all updates go through the raw value store and the error ledger. -/
theorem engine_keeps_id (fuel : Nat) :
    (∀ opts schema props st fresh a st' f',
      getFieldE fuel opts schema props st fresh = .ok (a, st', f') → st'.id = st.id) ∧
    (∀ opts schema props v st fresh st' f',
      setFieldE fuel opts schema props v st fresh = .ok (st', f') → st'.id = st.id) ∧
    (∀ opts schema props w st fresh st' f',
      writeValueE fuel opts schema props w st fresh = .ok (st', f') → st'.id = st.id) ∧
    (∀ opts schema k v st fresh s' st' f',
      setKeyE fuel opts schema k v st fresh = .ok (s', st', f') → st'.id = st.id) ∧
    (∀ opts schema props st fresh,
      ((clearFieldE fuel opts schema props st fresh).2.1).id = st.id) ∧
    (∀ opts schema rest st fresh,
      ((clearFieldsE fuel opts schema rest st fresh).2.1).id = st.id) := by
  induction fuel with
  | zero =>
    refine ⟨?_, ?_, ?_, ?_, ?_, ?_⟩
    · intro _ _ _ _ _ _ _ _ h; simp [getFieldE] at h
    · intro _ _ _ _ _ _ _ _ h; simp [setFieldE] at h
    · intro _ _ _ _ _ _ _ _ h; simp [writeValueE] at h
    · intro _ _ _ _ _ _ _ _ _ h; simp [setKeyE] at h
    · intro _ _ _ _ _; simp [clearFieldE]
    · intro _ _ _ _ _; simp [clearFieldsE]
  | succ n ih =>
    obtain ⟨ihg, ihs, ihw, ihk, ihcf, ihcfs⟩ := ih
    refine ⟨?_, ?_, ?_, ?_, ?_, ?_⟩
    · -- getFieldE
      intro opts schema props st fresh a st' f' h
      simp only [getFieldE] at h
      split at h
      · split at h
        · exact absurd h (by simp)
        · rename_i st2 f2 hw
          cases h
          split at hw
          · split at hw
            · split at hw
              · exact absurd hw (by simp)
              · exact ihw _ _ _ _ _ _ _ _ hw
            · split at hw
              · split at hw
                · exact absurd hw (by simp)
                · exact ihw _ _ _ _ _ _ _ _ hw
              · exact ihw _ _ _ _ _ _ _ _ hw
          · exact ihw _ _ _ _ _ _ _ _ hw
      · cases h; rfl
    · -- setFieldE
      intro opts schema props v st fresh st' f' h
      simp only [setFieldE] at h
      split at h
      · cases h; rfl
      · split at h
        · exact absurd h (by simp)
        · cases h; rfl
        · rename_i prior st1 f1 hg
          have h1 := ihg _ _ _ _ _ _ _ _ hg
          split at h
          · split at h
            · exact absurd h (by simp)
            · cases h; exact h1
            · rename_i r hw
              cases h
              exact (ihw _ _ _ _ _ _ _ _ hw).trans h1
          · exact absurd h (by simp)
          · cases h; exact h1
    · -- writeValueE
      intro opts schema props w st fresh st' f' h
      simp only [writeValueE] at h
      split at h
      · split at h
        · split at h
          · exact absurd h (by simp)
          · rename_i st2 f2 hk
            cases h
            exact ihk _ _ _ _ _ _ _ _ _ hk
        · cases h; rfl
      · cases h; rfl
    · -- setKeyE
      intro opts schema k v st fresh s' st' f' h
      simp only [setKeyE] at h
      split at h
      · split at h
        · exact absurd h (by simp)
        · rename_i st2 f2 hs
          cases h
          exact ihs _ _ _ _ _ _ _ _ hs
      · split at h
        · cases h; rfl
        · split at h
          · exact absurd h (by simp)
          · rename_i st2 f2 hs
            cases h
            exact ihs _ _ _ _ _ _ _ _ hs
    · -- clearFieldE
      intro opts schema props st fresh
      simp only [clearFieldE]
      split
      · rfl
      · split
        · split
          · rfl
          · rename_i v st1 f1 hg
            have h1 := ihg _ _ _ _ _ _ _ _ hg
            cases v <;> simp [h1]
        · split
          · rfl
          · rename_i v st1 f1 hg
            have h1 := ihg _ _ _ _ _ _ _ _ hg
            cases v <;> simp [h1]
        · split
          · rfl
          · rename_i st2 f2 hw
            simpa using (ihw _ _ _ _ _ _ _ _ hw)
    · -- clearFieldsE
      intro opts schema rest st fresh
      cases rest with
      | nil => simp [clearFieldsE]
      | cons hd tail =>
        obtain ⟨nm, p⟩ := hd
        simp only [clearFieldsE]
        split
        · rename_i e st2 f2 hcf
          have h2 := ihcf opts schema p st fresh
          rw [hcf] at h2
          simpa using h2
        · rename_i st2 f2 hcf
          have h2 := ihcf opts schema p st fresh
          rw [hcf] at h2
          simp only at h2
          exact (ihcfs _ _ _ _ _).trans h2

theorem storeGet_storeWrite (kvs : List (String × StoredVal)) (k : String) (v : StoredVal) :
    storeGet (storeWrite kvs k v) k = v := by
  induction kvs with
  | nil => simp [storeWrite, storeGet]
  | cons hd tl ih =>
    obtain ⟨k', v'⟩ := hd
    by_cases h : k' == k
    · simp [storeWrite, storeGet, h]
    · simp only [storeWrite, h]
      simpa [storeGet, h] using ih

/-- An array field whose container is initialized reads it back without
lazy initialization (containers are truthy). -/
theorem getFieldE_array_present (fuel : Nat) (opts : Opts) (schema : Schema)
    (props : FieldSpec) (st : InstState) (fresh : Nat) (id : Nat) (p : FieldSpec)
    (cur : List StoredVal) (hf : props.ftype = .array)
    (hs : storeGet st.obj props.name = .schemaArr id p cur) :
    getFieldE (fuel+1) opts schema props st fresh = .ok (.schemaArr id p cur, st, fresh) := by
  simp [getFieldE, fieldIdx, hf, hs, jsFalsy]

/-- An object field whose nested instance is initialized reads it back
without lazy initialization. -/
theorem getFieldE_object_present (fuel : Nat) (opts : Opts) (schema : Schema)
    (props : FieldSpec) (st : InstState) (fresh : Nat) (id : Nat)
    (flds : List (String × StoredVal)) (errs : List JSErr) (hf : props.ftype = .object)
    (hs : storeGet st.obj props.name = .inst id flds errs) :
    getFieldE (fuel+1) opts schema props st fresh = .ok (.inst id flds errs, st, fresh) := by
  simp [getFieldE, fieldIdx, hf, hs, jsFalsy]

/-- On an array field an object-like candidate is flattened and written
through the per-element loop of the existing container. -/
theorem typecastE_array_red (fuel : Nat) (opts : Opts) (props : FieldSpec) (v : JsVal)
    (id : Nat) (p : FieldSpec) (cur : List StoredVal) (fresh : Nat) (xs : List JsVal)
    (hf : props.ftype = .array) (hx : jsToArrayLodash v = some xs) :
    typecastE (fuel+1) opts props v (.schemaArr id p cur) fresh =
      (match arrAssignE fuel opts p [] xs fresh with
       | (none, contents, f') => (TCr.ok (.schemaArr id p contents), f')
       | (some e, sofar, f') => (TCr.rej e (.schemaArr id p sofar), f')) := by
  cases v <;> simp_all [typecastE, jsToArrayLodash]

/-- On an array field a non-object candidate is rejected before the
container is touched. -/
theorem typecastE_array_nonobj (fuel : Nat) (opts : Opts) (props : FieldSpec) (v : JsVal)
    (orig : StoredVal) (fresh : Nat) (hf : props.ftype = .array)
    (hx : jsToArrayLodash v = none) (hv : opts.preserveNull = false ∨ v ≠ .null) :
    typecastE (fuel+1) opts props v orig fresh =
      (.rej (.setterError "Array type cannot typecast non-Array types." v props.name)
        orig, fresh) := by
  rcases hv with hn | hn <;> cases v <;> simp_all [typecastE, jsToArrayLodash]

/-- Plain in-place assignment: with no element spec and no uniqueness,
the element loop appends exactly the candidate's elements. -/
theorem arrAssignE_plain (opts : Opts) (p : FieldSpec) (hT : p.arrayType = none)
    (hU : p.unique = false) :
    ∀ (xs : List JsVal) (fuel : Nat) (acc : List StoredVal) (fresh : Nat),
      xs.length < fuel →
      arrAssignE fuel opts p acc xs fresh = (none, acc ++ xs.map .js, fresh) := by
  intro xs
  induction xs with
  | nil =>
    intro fuel acc fresh hlt
    cases fuel with
    | zero => omega
    | succ n => simp [arrAssignE]
  | cons x tail ihx =>
    intro fuel acc fresh hlt
    match fuel, hlt with
    | m+2, hlt =>
      have hpush : pushE (m+1) opts p acc [x] fresh = (.ok (acc ++ [.js x]), fresh) := by
        simp [pushE, hT, hU]
      have htail := ihx (m+1) (acc ++ [.js x]) fresh (by simp at hlt ⊢; omega)
      simp [arrAssignE, hpush, htail]

/-- C8: array-field writes mutate the existing container in place — the
container's identity (and its stored properties) never changes across an
accepted or rejected write — and for the plain configuration the accepted
contents are exactly "truncate, then append the candidate's elements";
`clear()` truncates an array container keeping its identity and clears a
nested instance in place keeping its identity. -/
theorem c8_in_place_containers :
    (∀ fuel opts schema props v st fresh id p cur st' f',
      props.ftype = .array → props.readOnly = false →
      (opts.preserveNull = false ∨ v ≠ .null) →
      storeGet st.obj props.name = .schemaArr id p cur →
      setFieldE (fuel+2) opts schema props v st fresh = .ok (st', f') →
      ∃ contents, storeGet st'.obj props.name = .schemaArr id p contents) ∧
    (∀ fuel opts props v id p cur fresh xs,
      props.ftype = .array → p.arrayType = none → p.unique = false →
      jsToArrayLodash v = some xs → xs.length < fuel →
      typecastE (fuel+1) opts props v (.schemaArr id p cur) fresh =
        (.ok (.schemaArr id p (xs.map .js)), fresh)) ∧
    (∀ fuel opts schema props st fresh id p elems,
      props.ftype = .array → props.isAlias = false →
      storeGet st.obj props.name = .schemaArr id p elems →
      clearFieldE (fuel+2) opts schema props st fresh =
        (none, {st with obj := storeWrite st.obj props.name (.schemaArr id p [])}, fresh)) ∧
    (∀ fuel opts schema props st fresh id flds errs,
      props.ftype = .object → props.isAlias = false →
      storeGet st.obj props.name = .inst id flds errs →
      ∃ oe flds' errs' f', clearFieldE (fuel+2) opts schema props st fresh =
        (oe, {st with obj := storeWrite st.obj props.name (.inst id flds' errs')}, f')) := by
  refine ⟨?_, ?_, ?_, ?_⟩
  · intro fuel opts schema props v st fresh id p cur st' f' hf hro hv hs h
    have hget := getFieldE_array_present fuel opts schema props st fresh id p cur hf hs
    simp only [setFieldE, hro, Bool.false_eq_true, if_false, hget] at h
    cases hx : jsToArrayLodash v with
    | none =>
      rw [typecastE_array_nonobj fuel opts props v _ fresh hf hx hv] at h
      simp only [hf] at h
      cases h
      exact ⟨cur, storeGet_storeWrite _ _ _⟩
    | some xs =>
      rw [typecastE_array_red fuel opts props v id p cur fresh xs hf hx] at h
      rcases ha : arrAssignE fuel opts p [] xs fresh with ⟨oe, contents, f2⟩
      cases oe with
      | none =>
        rw [ha] at h
        simp only [writeValueE] at h
        have hna : (props.ftype == FType.alias) = false := by simp [hf]
        simp only [hna, Bool.false_eq_true, if_false] at h
        cases h
        exact ⟨contents, storeGet_storeWrite _ _ _⟩
      | some e =>
        rw [ha] at h
        cases e with
        | outOfFuel => exact absurd h (by simp)
        | setterError m sv fn =>
          simp only [hf] at h
          cases h
          exact ⟨contents, storeGet_storeWrite _ _ _⟩
        | jsError m =>
          simp only [hf] at h
          cases h
          exact ⟨contents, storeGet_storeWrite _ _ _⟩
  · intro fuel opts props v id p cur fresh xs hf hT hU hx hlen
    rw [typecastE_array_red fuel opts props v id p cur fresh xs hf hx]
    rw [arrAssignE_plain opts p hT hU xs fuel [] fresh hlen]
    simp
  · intro fuel opts schema props st fresh id p elems hf hal hs
    have hget := getFieldE_array_present fuel opts schema props st fresh id p elems hf hs
    simp [clearFieldE, hal, hf, hget]
  · intro fuel opts schema props st fresh id flds errs hf hal hs
    have hget := getFieldE_object_present fuel opts schema props st fresh id flds errs hf hs
    have hid := (engine_keeps_id (fuel+1)).2.2.2.2.2 opts (props.objectType.getD [])
      (props.objectType.getD []) ⟨id, flds, errs⟩ fresh
    refine ⟨(clearFieldsE (fuel+1) opts (props.objectType.getD []) (props.objectType.getD [])
        ⟨id, flds, errs⟩ fresh).1,
      (clearFieldsE (fuel+1) opts (props.objectType.getD []) (props.objectType.getD [])
        ⟨id, flds, errs⟩ fresh).2.1.obj,
      (clearFieldsE (fuel+1) opts (props.objectType.getD []) (props.objectType.getD [])
        ⟨id, flds, errs⟩ fresh).2.1.errors,
      (clearFieldsE (fuel+1) opts (props.objectType.getD []) (props.objectType.getD [])
        ⟨id, flds, errs⟩ fresh).2.2, ?_⟩
    simp only [clearFieldE, hal, Bool.false_eq_true, if_false, hf, hget]
    simp only [StoredVal.ofInst]
    simp only [InstState.id] at hid
    rw [hid]

/-- An array field `g` with no element spec and no uniqueness. -/
def plainArrSpec : FieldSpec :=
  .mk "g" .array none none none none none none false none none none false false none false

/-- Witness for `c8_in_place_containers`: an accepted write over a
container with id 1 keeps id 1; a plain assignment truncates and
appends; clearing truncates the container and clears the nested instance
in place. -/
theorem c8_in_place_containers_witness :
    (∃ contents,
      storeGet (⟨0, [("t", StoredVal.schemaArr 1 uniqArrSpec [.js (.num 4)])], []⟩ :
        InstState).obj uniqArrSpec.name = .schemaArr 1 uniqArrSpec contents) ∧
    typecastE 3 defaultOpts plainArrSpec (.arr [.num 1])
      (.schemaArr 5 plainArrSpec [.js (.num 9)]) 7 =
      (.ok (.schemaArr 5 plainArrSpec [.js (.num 1)]), 7) ∧
    clearFieldE 12 defaultOpts schemaUniq uniqArrSpec
      ⟨0, [("t", .schemaArr 1 uniqArrSpec [.js (.num 7)])], []⟩ 2 =
      (none, {(⟨0, [("t", .schemaArr 1 uniqArrSpec [.js (.num 7)])], []⟩ : InstState) with
        obj := storeWrite [("t", .schemaArr 1 uniqArrSpec [.js (.num 7)])] uniqArrSpec.name
          (.schemaArr 1 uniqArrSpec [])}, 2) ∧
    (∃ oe flds' errs' f',
      clearFieldE 12 defaultOpts schemaAddr addrSpec
        ⟨0, [("addr", .inst 1 [("city", .js (.str "pp"))] [])], []⟩ 2 =
        (oe, {(⟨0, [("addr", .inst 1 [("city", .js (.str "pp"))] [])], []⟩ : InstState) with
          obj := storeWrite [("addr", .inst 1 [("city", .js (.str "pp"))] [])] addrSpec.name
            (.inst 1 flds' errs')}, f')) :=
  ⟨c8_in_place_containers.1 10 defaultOpts schemaUniq uniqArrSpec (.arr [.num 4])
      ⟨0, [("t", .schemaArr 1 uniqArrSpec [.js (.num 7)])], []⟩ 2 1 uniqArrSpec
      [.js (.num 7)] ⟨0, [("t", .schemaArr 1 uniqArrSpec [.js (.num 4)])], []⟩ 2
      rfl rfl (Or.inl rfl) rfl rfl,
   c8_in_place_containers.2.1 2 defaultOpts plainArrSpec (.arr [.num 1]) 5 plainArrSpec
      [.js (.num 9)] 7 [.num 1] rfl rfl rfl rfl (by decide),
   c8_in_place_containers.2.2.1 10 defaultOpts schemaUniq uniqArrSpec
      ⟨0, [("t", .schemaArr 1 uniqArrSpec [.js (.num 7)])], []⟩ 2 1 uniqArrSpec
      [.js (.num 7)] rfl rfl rfl,
   c8_in_place_containers.2.2.2 10 defaultOpts schemaAddr addrSpec
      ⟨0, [("addr", .inst 1 [("city", .js (.str "pp"))] [])], []⟩ 2 1
      [("city", .js (.str "pp"))] [] rfl rfl rfl⟩

def rtNameSpec : FieldSpec :=
  .mk "name" .string (some 1) (some 30) none none none none false none none none false false none false
def rtTagsSpec : FieldSpec :=
  .mk "tags" .array none none none none none none true none none none false false none false
def rtWhenSpec : FieldSpec :=
  .mk "when" .date none none none none none none false none none none false false none false
def rtAddrSpec : FieldSpec :=
  .mk "addr" .object none none none none none none false none (some addrSchema) none false false none false
def rtSchema : Schema :=
  [("name", rtNameSpec), ("addr", rtAddrSpec), ("tags", rtTagsSpec), ("when", rtWhenSpec)]

def rtIn (nm city : String) (a b ms : Int) : List (String × JsVal) :=
  [("name", .str nm), ("addr", .obj [("city", .str city)]),
   ("tags", .arr [.num a, .num b]), ("when", .date ms)]

theorem storeWrite_storeWrite (kvs : List (String × StoredVal)) (k : String) (v w : StoredVal) :
    storeWrite (storeWrite kvs k v) k w = storeWrite kvs k w := by
  induction kvs with
  | nil => simp [storeWrite]
  | cons hd tl ih =>
    obtain ⟨k', v'⟩ := hd
    by_cases h : k' == k <;> simp [storeWrite, h, ih]

theorem storeGet_storeWrite_ne (kvs : List (String × StoredVal)) (k k' : String)
    (v : StoredVal) (h : (k == k') = false) :
    storeGet (storeWrite kvs k v) k' = storeGet kvs k' := by
  induction kvs with
  | nil => simp_all [storeWrite, storeGet]
  | cons hd tl ih =>
    obtain ⟨k0, v0⟩ := hd
    by_cases h0 : k0 == k
    · have : (k0 == k') = false := by
        simp_all
      simp [storeWrite, h0, storeGet, this]
    · by_cases h1 : k0 == k' <;> simp_all [storeWrite, storeGet]

/-- Constructing the nested `addr` instance with no values. -/
theorem mk_addr_empty (fuel : Nat) (fresh : Nat) :
    mkInstE (fuel+3) defaultOpts addrSchema [] fresh =
      .ok (addrSchema, ⟨fresh, [], []⟩, fresh+1) := by
  simp [mkInstE, defaultsE, populateE, addrSchema, citySpec, FieldSpec.defaultVal]

/-- The representative schema declares no defaults. -/
theorem rt_defaults (fuel : Nat) (st : InstState) (fresh : Nat) :
    defaultsE (fuel+5) defaultOpts rtSchema rtSchema st fresh = .ok (st, fresh) := by
  simp [defaultsE, rtSchema, rtNameSpec, rtAddrSpec, rtTagsSpec, rtWhenSpec,
    FieldSpec.defaultVal]

/-- Writing the in-bounds `name` string. -/
theorem rt_name_write (fuel : Nat) (nm : String) (st : InstState) (fresh : Nat)
    (h1 : 1 ≤ nm.length) (h2 : nm.length ≤ 30) :
    setKeyE (fuel+3) defaultOpts rtSchema "name" (.str nm) st fresh =
      .ok (rtSchema, {st with obj := storeWrite st.obj "name" (.js (.str nm))}, fresh) := by
  have g1 : ¬ (nm.length < 1) := by omega
  have g2 : ¬ (nm.length > 30) := by omega
  have htc : typecastPrim defaultOpts rtNameSpec (.str nm) = .ok (.str nm) := by
    show stringRules rtNameSpec nm = _
    simp [stringRules, rtNameSpec, FieldSpec.clip, FieldSpec.maxLength, FieldSpec.enumVals,
      FieldSpec.minLength, g1, g2]
  have hss := setFieldE_prim_ok fuel defaultOpts rtSchema rtNameSpec (.str nm) (.str nm)
    st fresh (Or.inl rfl) rfl (Or.inl rfl) htc
  rw [setKeyE_declared (fuel+2) defaultOpts rtSchema "name" rtNameSpec (.str nm) st fresh
    rfl rfl, hss]
  rfl

/-- Writing the `when` date. -/
theorem rt_when_write (fuel : Nat) (ms : Int) (st : InstState) (fresh : Nat) :
    setKeyE (fuel+3) defaultOpts rtSchema "when" (.date ms) st fresh =
      .ok (rtSchema, {st with obj := storeWrite st.obj "when" (.js (.date ms))}, fresh) := by
  have hss := setFieldE_prim_ok fuel defaultOpts rtSchema rtWhenSpec (.date ms) (.date ms)
    st fresh (Or.inr (Or.inr (Or.inr (Or.inl rfl)))) rfl (Or.inl rfl) rfl
  rw [setKeyE_declared (fuel+2) defaultOpts rtSchema "when" rtWhenSpec (.date ms) st fresh
    rfl rfl, hss]
  rfl

/-- Writing the two distinct `tags` onto the lazily created container. -/
theorem rt_tags_write (fuel : Nat) (a b : Int) (st : InstState) (fresh : Nat)
    (hab : (a == b) = false) (hs : storeGet st.obj "tags" = .js .undef) :
    setKeyE (fuel+6) defaultOpts rtSchema "tags" (.arr [.num a, .num b]) st fresh =
      .ok (rtSchema, {st with obj := (storeWrite st.obj "tags"
        (.schemaArr fresh rtTagsSpec [.js (.num a), .js (.num b)]))}, fresh+1) := by
  have hget : getFieldE (fuel+4) defaultOpts rtSchema rtTagsSpec st fresh =
      .ok (.schemaArr fresh rtTagsSpec [],
        {st with obj := storeWrite st.obj "tags" (.schemaArr fresh rtTagsSpec [])}, fresh+1) := by
    simp [getFieldE, fieldIdx, rtTagsSpec, FieldSpec.ftype, FieldSpec.aliasIndex,
      FieldSpec.name, hs, jsFalsy, jsFalsyV, writeValueE, storeGet_storeWrite]
  have harr : arrAssignE (fuel+3) defaultOpts rtTagsSpec [] [.num a, .num b] (fresh+1) =
      (none, [.js (.num a), .js (.num b)], fresh+1) := by
    simp [arrAssignE, pushE, rtTagsSpec, FieldSpec.arrayType, FieldSpec.unique,
      sameValueZero, hab]
  have htc : typecastE (fuel+4) defaultOpts rtTagsSpec (.arr [.num a, .num b])
      (.schemaArr fresh rtTagsSpec []) (fresh+1) =
      (.ok (.schemaArr fresh rtTagsSpec [.js (.num a), .js (.num b)]), fresh+1) := by
    rw [typecastE_array_red (fuel+3) defaultOpts rtTagsSpec (.arr [.num a, .num b])
      fresh rtTagsSpec [] (fresh+1) [.num a, .num b] rfl rfl, harr]
  rw [setKeyE_declared (fuel+5) defaultOpts rtSchema "tags" rtTagsSpec
    (.arr [.num a, .num b]) st fresh rfl rfl]
  simp only [setFieldE, show rtTagsSpec.readOnly = false from rfl, Bool.false_eq_true,
    if_false]
  rw [hget]
  dsimp only
  rw [htc]
  dsimp only
  simp only [writeValueE, show (rtTagsSpec.ftype == FType.alias) = false from rfl,
    Bool.false_eq_true, if_false, show rtTagsSpec.name = "tags" from rfl]
  rw [storeWrite_storeWrite]

/-- Writing the nested `addr` object onto an unset field: the getter
lazily allocates the nested instance, the typecast clears and repopulates
it in place. -/
theorem rt_addr_write (fuel : Nat) (city : String) (st : InstState) (fresh : Nat)
    (h2 : 2 ≤ city.length) (hs : storeGet st.obj "addr" = .js .undef) :
    setKeyE (fuel+7) defaultOpts rtSchema "addr" (.obj [("city", .str city)]) st fresh =
      .ok (rtSchema, {st with obj := (storeWrite st.obj "addr"
        (.inst fresh [("city", .js (.str city))] []))}, fresh+1) := by
  have hmk : mkInstE (fuel+4) defaultOpts addrSchema [] fresh =
      .ok (addrSchema, ⟨fresh, [], []⟩, fresh+1) := mk_addr_empty (fuel+1) fresh
  have hget : getFieldE (fuel+5) defaultOpts rtSchema rtAddrSpec st fresh =
      .ok (.inst fresh [] [],
        {st with obj := storeWrite st.obj "addr" (.inst fresh [] [])}, fresh+1) := by
    simp [getFieldE, fieldIdx, rtAddrSpec, FieldSpec.ftype, FieldSpec.aliasIndex,
      FieldSpec.name, FieldSpec.defaultVal, FieldSpec.objectType, hs, jsFalsy, jsFalsyV,
      hmk, writeValueE, storeGet_storeWrite, StoredVal.ofInst]
  have hclr : clearFieldsE (fuel+4) defaultOpts addrSchema addrSchema
      ⟨fresh, [], []⟩ (fresh+1) = (none, ⟨fresh, [("city", .js .undef)], []⟩, fresh+1) := by
    simp [clearFieldsE, clearFieldE, addrSchema, citySpec, FieldSpec.isAlias,
      FieldSpec.ftype, writeValueE, FieldSpec.name, storeWrite]
  have g2 : ¬ (city.length < 2) := by omega
  have htcc : typecastPrim defaultOpts citySpec (.str city) = .ok (.str city) := by
    show stringRules citySpec city = _
    simp [stringRules, citySpec, FieldSpec.clip, FieldSpec.maxLength, FieldSpec.enumVals,
      FieldSpec.minLength, g2]
  have hcw := setFieldE_prim_ok fuel defaultOpts addrSchema citySpec (.str city) (.str city)
    ⟨fresh, [("city", .js .undef)], []⟩ (fresh+1) (Or.inl rfl) rfl (Or.inl rfl) htcc
  have hpop : populateE (fuel+4) defaultOpts addrSchema [("city", .str city)]
      ⟨fresh, [("city", .js .undef)], []⟩ (fresh+1) =
      .ok (addrSchema, ⟨fresh, [("city", .js (.str city))], []⟩, fresh+1) := by
    simp only [populateE]
    rw [setKeyE_declared (fuel+2) defaultOpts addrSchema "city" citySpec (.str city)
      ⟨fresh, [("city", .js .undef)], []⟩ (fresh+1) rfl rfl, hcw]
    simp [populateE, storeWrite, FieldSpec.name, citySpec]
  have htc : typecastE (fuel+5) defaultOpts rtAddrSpec (.obj [("city", .str city)])
      (.inst fresh [] []) (fresh+1) =
      (.ok (.inst fresh [("city", .js (.str city))] []), fresh+1) := by
    simp [typecastE, rtAddrSpec, FieldSpec.ftype, FieldSpec.objectType, isObjectJs,
      jsOwnKvs, hclr, hpop, StoredVal.ofInst]
  rw [setKeyE_declared (fuel+6) defaultOpts rtSchema "addr" rtAddrSpec
    (.obj [("city", .str city)]) st fresh rfl rfl]
  simp only [setFieldE, show rtAddrSpec.readOnly = false from rfl, Bool.false_eq_true,
    if_false]
  rw [hget]
  dsimp only
  rw [htc]
  dsimp only
  simp only [writeValueE, show (rtAddrSpec.ftype == FType.alias) = false from rfl,
    Bool.false_eq_true, if_false, show rtAddrSpec.name = "addr" from rfl]
  rw [storeWrite_storeWrite]

/-- The raw state of the representative instance after construction from
`rtIn`: root id `fresh`, nested `addr` instance id `fresh+1`, `tags`
container id `fresh+2`. -/
def rtSt (nm city : String) (a b ms : Int) (fresh : Nat) : InstState :=
  ⟨fresh, [("name", .js (.str nm)),
    ("addr", .inst (fresh+1) [("city", .js (.str city))] []),
    ("tags", .schemaArr (fresh+2) rtTagsSpec [.js (.num a), .js (.num b)]),
    ("when", .js (.date ms))], []⟩

/-- Constructing the representative instance from the bag `rtIn`. -/
theorem rt_construct (fuel : Nat) (nm city : String) (a b ms : Int) (fresh : Nat)
    (h1 : 1 ≤ nm.length) (h2 : nm.length ≤ 30) (hc : 2 ≤ city.length)
    (hab : (a == b) = false) :
    mkInstE (fuel+10) defaultOpts rtSchema (rtIn nm city a b ms) fresh =
      .ok (rtSchema, rtSt nm city a b ms fresh, fresh+3) := by
  have hdef : defaultsE (fuel+9) defaultOpts rtSchema rtSchema ⟨fresh, [], []⟩ (fresh+1) =
      .ok (⟨fresh, [], []⟩, fresh+1) := rt_defaults (fuel+4) ⟨fresh, [], []⟩ (fresh+1)
  have hname : setKeyE (fuel+8) defaultOpts rtSchema "name" (.str nm)
      ⟨fresh, [], []⟩ (fresh+1) =
      .ok (rtSchema, ⟨fresh, [("name", .js (.str nm))], []⟩, fresh+1) :=
    rt_name_write (fuel+5) nm ⟨fresh, [], []⟩ (fresh+1) h1 h2
  have haddr : setKeyE (fuel+7) defaultOpts rtSchema "addr" (.obj [("city", .str city)])
      ⟨fresh, [("name", .js (.str nm))], []⟩ (fresh+1) =
      .ok (rtSchema, ⟨fresh, [("name", .js (.str nm)),
        ("addr", .inst (fresh+1) [("city", .js (.str city))] [])], []⟩, fresh+2) :=
    rt_addr_write fuel city ⟨fresh, [("name", .js (.str nm))], []⟩ (fresh+1) hc rfl
  have htags : setKeyE (fuel+6) defaultOpts rtSchema "tags" (.arr [.num a, .num b])
      ⟨fresh, [("name", .js (.str nm)),
        ("addr", .inst (fresh+1) [("city", .js (.str city))] [])], []⟩ (fresh+2) =
      .ok (rtSchema, ⟨fresh, [("name", .js (.str nm)),
        ("addr", .inst (fresh+1) [("city", .js (.str city))] []),
        ("tags", .schemaArr (fresh+2) rtTagsSpec [.js (.num a), .js (.num b)])], []⟩,
        fresh+3) :=
    rt_tags_write fuel a b ⟨fresh, [("name", .js (.str nm)),
      ("addr", .inst (fresh+1) [("city", .js (.str city))] [])], []⟩ (fresh+2) hab rfl
  have hwhen : setKeyE (fuel+5) defaultOpts rtSchema "when" (.date ms)
      ⟨fresh, [("name", .js (.str nm)),
        ("addr", .inst (fresh+1) [("city", .js (.str city))] []),
        ("tags", .schemaArr (fresh+2) rtTagsSpec [.js (.num a), .js (.num b)])], []⟩
      (fresh+3) =
      .ok (rtSchema, rtSt nm city a b ms fresh, fresh+3) :=
    rt_when_write (fuel+2) ms ⟨fresh, [("name", .js (.str nm)),
      ("addr", .inst (fresh+1) [("city", .js (.str city))] []),
      ("tags", .schemaArr (fresh+2) rtTagsSpec [.js (.num a), .js (.num b)])], []⟩ (fresh+3)
  simp only [mkInstE]
  rw [hdef]
  dsimp only
  simp only [rtIn, populateE]
  rw [hname]
  dsimp only
  rw [haddr]
  dsimp only
  rw [htags]
  dsimp only
  rw [hwhen]

/-- Projecting the representative state back out through `toObject()`:
the output equals the input bag and the state is unchanged. -/
theorem rt_project (fuel : Nat) (nm city : String) (a b ms : Int) (fresh f : Nat) :
    toObjFieldsE (fuel+6) defaultOpts rtSchema rtSchema (rtSt nm city a b ms fresh) f =
      .ok (rtIn nm city a b ms, rtSt nm city a b ms fresh, f) := by
  simp [toObjFieldsE, rtSchema, rtSt, rtIn, rtNameSpec, rtAddrSpec, rtTagsSpec, rtWhenSpec,
    addrSchema, citySpec, getFieldE, fieldIdx, FieldSpec.ftype, FieldSpec.aliasIndex,
    FieldSpec.name, FieldSpec.invisible, FieldSpec.objectType, FieldSpec.arrayType,
    jsFalsy, jsFalsyV, storeGet, storeWrite, toArrElemsE, StoredVal.ofInst, defaultOpts]

/-- The round trip of the claim: construct from `input`, materialize with
`toObject()`, construct a second instance from that output, materialize
again; returns the two materializations. -/
def roundTrip (fuel : Nat) (opts : Opts) (schema : Schema)
    (input : List (String × JsVal)) :
    Option (List (String × JsVal) × List (String × JsVal)) :=
  match mkInstE fuel opts schema input 0 with
  | .error _ => none
  | .ok (schema1, st1, f1) =>
    match toObjectE fuel opts schema1 st1 f1 with
    | .error _ => none
    | .ok (out1, _, f2) =>
      match mkInstE fuel opts schema1 out1 f2 with
      | .error _ => none
      | .ok (schema2, st2, f3) =>
        match toObjectE fuel opts schema2 st2 f3 with
        | .error _ => none
        | .ok (out2, _, _) => some (out1, out2)

/-- C5, counterexample: over `{d: {type: String, default: 'x'}}`, an
instance whose `d` was cleared (assigned `undefined`) has an empty Error
Ledger everywhere and `toObject() = {}`; constructing a new instance from
`{}` reapplies the declared default, so the new instance's `toObject()`
is `{d: 'x'}`, not `{}`. -/
theorem c5_counterexample :
    mkInstE 30 defaultOpts schemaDef [] 0 =
      .ok (schemaDef, ⟨0, [("d", .js (.str "x"))], []⟩, 1) ∧
    setKeyE 30 defaultOpts schemaDef "d" .undef ⟨0, [("d", .js (.str "x"))], []⟩ 1 =
      .ok (schemaDef, ⟨0, [("d", .js .undef)], []⟩, 1) ∧
    toObjectE 30 defaultOpts schemaDef ⟨0, [("d", .js .undef)], []⟩ 1 =
      .ok ([], ⟨0, [("d", .js .undef)], []⟩, 1) ∧
    mkInstE 30 defaultOpts schemaDef [] 1 =
      .ok (schemaDef, ⟨1, [("d", .js (.str "x"))], []⟩, 2) ∧
    toObjectE 30 defaultOpts schemaDef ⟨1, [("d", .js (.str "x"))], []⟩ 2 =
      .ok ([("d", .str "x")], ⟨1, [("d", .js (.str "x"))], []⟩, 2) ∧
    ([("d", JsVal.str "x")] : List (String × JsVal)) ≠ [] :=
  ⟨rfl, rfl, rfl, rfl, rfl, by simp⟩

/-- C5 (amended): for the representative schema `rtSchema` — an in-bounds
string, a nested object, a unique array of two distinct numbers, a date —
constructing from `rtIn`, materializing, reconstructing from the output
and materializing again yields the same object both times, and the
constructed instance's Error Ledger is empty. -/
theorem c5_amended (nm city : String) (a b ms : Int)
    (h1 : 1 ≤ nm.length) (h2 : nm.length ≤ 30) (hc : 2 ≤ city.length) (hab : a ≠ b) :
    roundTrip 20 defaultOpts rtSchema (rtIn nm city a b ms) =
      some (rtIn nm city a b ms, rtIn nm city a b ms) ∧
    (rtSt nm city a b ms 0).errors = [] := by
  have hab' : (a == b) = false := by
    simpa using hab
  have hmk1 : mkInstE 20 defaultOpts rtSchema (rtIn nm city a b ms) 0 =
      .ok (rtSchema, rtSt nm city a b ms 0, 3) :=
    rt_construct 10 nm city a b ms 0 h1 h2 hc hab'
  have hto1 : toObjectE 20 defaultOpts rtSchema (rtSt nm city a b ms 0) 3 =
      .ok (rtIn nm city a b ms, rtSt nm city a b ms 0, 3) :=
    rt_project 14 nm city a b ms 0 3
  have hmk2 : mkInstE 20 defaultOpts rtSchema (rtIn nm city a b ms) 3 =
      .ok (rtSchema, rtSt nm city a b ms 3, 6) :=
    rt_construct 10 nm city a b ms 3 h1 h2 hc hab'
  have hto2 : toObjectE 20 defaultOpts rtSchema (rtSt nm city a b ms 3) 6 =
      .ok (rtIn nm city a b ms, rtSt nm city a b ms 3, 6) :=
    rt_project 14 nm city a b ms 3 6
  refine ⟨?_, rfl⟩
  simp only [roundTrip, hmk1, hto1, hmk2, hto2]

theorem c5_amended_witness :
    (1 ≤ ("Al" : String).length ∧ ("Al" : String).length ≤ 30 ∧
      2 ≤ ("Sp" : String).length ∧ (1 : Int) ≠ 2) ∧
    (roundTrip 20 defaultOpts rtSchema (rtIn "Al" "Sp" 1 2 5) =
      some (rtIn "Al" "Sp" 1 2 5, rtIn "Al" "Sp" 1 2 5) ∧
    (rtSt "Al" "Sp" 1 2 5 0).errors = []) :=
  ⟨⟨by decide, by decide, by decide, by decide⟩,
   c5_amended "Al" "Sp" 1 2 5 (by decide) (by decide) (by decide) (by decide)⟩
